import Mathlib

/-!
Shallow embedding of the GV-Validator reconciliation engine
(src/vra/models.py, src/vra/reconciliation.py, src/vra/vlm.py,
src/vra/pdf_protocol.py, src/vra/pdf_report.py) and proofs about it.

Modelling conventions:
* Python `float` is idealised as `ℚ`; the only float operations the
  claims touch are order comparisons, min/max clamping and the literals
  0.0 / 1.0, all of which are faithfully mirrored on `ℚ`.
* Python `dict` insertion / lookup is modelled by `pyDictInsert` /
  `pyDict` / `pyGet` below (insertion order preserved, later insert for
  an existing key overwrites in place, lookup returns the stored value).
* File paths are plain strings; rendering a crop is abstracted to the
  deterministic output path the renderer returns (`render_protocol_crop`
  and `render_report_crop` return their `out_path` argument).
* The stateful `VLMClient.compare` collaborator, as seen from
  `run_reconciliation`, is abstracted to a function from the number of
  previous oracle invocations and the four optional crop paths to a
  `ComparisonResult`; theorems quantify over this function.
-/

set_option allowUnsafeReducibility true in
attribute [semireducible] Rat.add

set_option allowUnsafeReducibility true in
attribute [semireducible] Rat.sub

set_option allowUnsafeReducibility true in
attribute [semireducible] Rat.mul

set_option allowUnsafeReducibility true in
attribute [semireducible] Rat.inv

namespace VRA

/-- Decision enum from src/vra/models.py (`class Decision`). -/
inductive Decision where
  | PASS
  | FAIL
  | NA
  | UNSET
deriving DecidableEq, Repr

/-- String value of each Decision member, as in models.py. -/
def Decision.value : Decision → String
  | .PASS => "PASS"
  | .FAIL => "FAIL"
  | .NA => "N#2FA"
  | .UNSET => "UNSET"

/-- Axis-aligned rectangle `(x0, y0, x1, y1)`. -/
abbrev Rect := ℚ × ℚ × ℚ × ℚ

/-- ComparisonResult from src/vra/models.py. The Python field `match` is a
Lean keyword, so it is called `matchFlag` here. -/
structure ComparisonResult where
  matchFlag : Bool
  reason : String
  confidence : Option ℚ := none
deriving DecidableEq, Repr

/-- ProtocolRow from src/vra/models.py. -/
structure ProtocolRow where
  repeat_id : Nat
  difference_id : Nat
  page_index : Nat
  radio_group_name : String
  widget_indices : List (String × Nat) := []
  master_bbox : Option Rect := none
  sample_bbox : Option Rect := none
deriving DecidableEq, Repr

/-- ReportBlock from src/vra/models.py. -/
structure ReportBlock where
  repeat_id : Nat
  difference_id : Nat
  page_index : Nat
  block_bbox : Rect
  master_bbox : Option Rect := none
  sample_bbox : Option Rect := none
deriving DecidableEq, Repr

/-- ReconciliationRow from src/vra/models.py. The Python field `match` is
called `matchFlag` here. -/
structure ReconciliationRow where
  repeat_id : Nat
  difference_id : Nat
  decision : Decision
  matchFlag : Bool
  confidence : Option ℚ := none
  reason : String := ""
  evidence : List String := []
  protocol_page_index : Option Nat := none
  protocol_widget_name : Option String := none
  report_page_index : Option Nat := none
deriving DecidableEq, Repr

/-- Composite key of a row/block. -/
def ReconciliationRow.key (r : ReconciliationRow) : Nat × Nat :=
  (r.repeat_id, r.difference_id)

/-- Insert into a Python dict: overwrite in place if the key exists,
otherwise append at the end. -/
def pyDictInsert {κ V : Type} [DecidableEq κ] :
    List (κ × V) → κ → V → List (κ × V)
  | [], k, v => [(k, v)]
  | (k', v') :: rest, k, v =>
    if k' = k then (k', v) :: rest else (k', v') :: pyDictInsert rest k v

/-- Build a Python dict from an association list (later entries for the
same key overwrite earlier ones, first-insertion order is kept). -/
def pyDict {κ V : Type} [DecidableEq κ] (l : List (κ × V)) : List (κ × V) :=
  l.foldl (fun d kv => pyDictInsert d kv.1 kv.2) []

/-- Python `dict.get`. -/
def pyGet {κ V : Type} [DecidableEq κ] (d : List (κ × V)) (k : κ) : Option V :=
  (d.find? (fun kv => decide (kv.1 = k))).map (·.2)

/-- `build_report_lookup` from src/vra/pdf_report.py:
`{(b.repeat_id, b.difference_id): b for b in blocks}`. -/
def build_report_lookup (blocks : List ReportBlock) :
    List ((Nat × Nat) × ReportBlock) :=
  pyDict (blocks.map fun b => ((b.repeat_id, b.difference_id), b))

/-- `protocol_lookup` from src/vra/reconciliation.py line 33:
`{(r.repeat_id, r.difference_id): r for r in protocol_rows}`. -/
def protocolLookup (rows : List ProtocolRow) :
    List ((Nat × Nat) × ProtocolRow) :=
  pyDict (rows.map fun r => ((r.repeat_id, r.difference_id), r))

/-- `repeat_counts.get(repeat_id, 0)` from src/vra/reconciliation.py
lines 27-29: the number of report blocks carrying this repeat_id. -/
def repeatCount (blocks : List ReportBlock) (repeat_id : Nat) : Nat :=
  (blocks.filter (fun b => decide (b.repeat_id = repeat_id))).length

/-- `EXPECTED_REPEATS = range(1, 5)` from src/vra/reconciliation.py. -/
def EXPECTED_REPEATS : List Nat := (List.range 4).map (· + 1)

/-- `EXPECTED_DIFFERENCE_IDS = range(1, 20)` from src/vra/reconciliation.py. -/
def EXPECTED_DIFFERENCE_IDS : List Nat := (List.range 19).map (· + 1)

/-- The expected-key universe, in the repeat-major, difference-minor order
in which the nested loops of `run_reconciliation` visit it. -/
def expectedKeys : List (Nat × Nat) :=
  EXPECTED_REPEATS.flatMap fun r => EXPECTED_DIFFERENCE_IDS.map fun d => (r, d)

/-- Input data of one `run_reconciliation` call, with the two extracted
record lists and the oracle collaborator abstracted as described in the
header comment. -/
structure EngineInput where
  protocol_rows : List ProtocolRow
  report_blocks : List ReportBlock
  threshold : ℚ
  output_dir : String
  oracle : Nat → Option String → Option String → Option String →
    Option String → ComparisonResult

/-- Evidence directory for one key:
`output_dir / "evidence" / f"r{repeat_id}_d{difference_id}"`. -/
def evidenceDir (inp : EngineInput) (repeat_id difference_id : Nat) : String :=
  inp.output_dir ++ "/evidence/r" ++ toString repeat_id ++ "_d" ++
    toString difference_id

/-- The four optional crop paths produced for one key by the rendering
block of `run_reconciliation` (lines 110-150): a crop is rendered exactly
when the corresponding record and bbox are present, and the renderer
returns its `out_path`. -/
def cropPaths (inp : EngineInput) (repeat_id difference_id : Nat) :
    Option String × Option String × Option String × Option String :=
  let protocol_row := pyGet (protocolLookup inp.protocol_rows)
    (repeat_id, difference_id)
  let report_block := pyGet (build_report_lookup inp.report_blocks)
    (repeat_id, difference_id)
  let dir := evidenceDir inp repeat_id difference_id
  let pq_master := match protocol_row with
    | some pr => match pr.master_bbox with
      | some _ => some (dir ++ "/pq_master.png")
      | none => none
    | none => none
  let pq_sample := match protocol_row with
    | some pr => match pr.sample_bbox with
      | some _ => some (dir ++ "/pq_sample.png")
      | none => none
    | none => none
  let report_master := match report_block with
    | some rb => match rb.master_bbox with
      | some _ => some (dir ++ "/report_master.png")
      | none => none
    | none => none
  let report_sample := match report_block with
    | some rb => match rb.sample_bbox with
      | some _ => some (dir ++ "/report_sample.png")
      | none => none
    | none => none
  (pq_master, pq_sample, report_master, report_sample)

/-- `effective_confidence` from src/vra/reconciliation.py lines 158-160:
the comparison's confidence if present, else 1.0. -/
def effectiveConfidence (c : ComparisonResult) : ℚ :=
  match c.confidence with
  | some q => q
  | none => 1

/-- Body of the per-key loop of `run_reconciliation` (lines 40-211) for a
single key, threading the number of oracle calls made so far. Returns the
appended row and the updated oracle-call counter. -/
def processKey (inp : EngineInput) (callIdx : Nat)
    (repeat_id difference_id : Nat) : ReconciliationRow × Nat :=
  let protocol_row := pyGet (protocolLookup inp.protocol_rows)
    (repeat_id, difference_id)
  let report_block := pyGet (build_report_lookup inp.report_blocks)
    (repeat_id, difference_id)
  match report_block with
  | none =>
    if repeatCount inp.report_blocks repeat_id = 0 then
      ({ repeat_id := repeat_id
         difference_id := difference_id
         decision := .PASS
         matchFlag := true
         confidence := some 1
         reason := "Auto-pass: report shows zero differences for this repeat."
         evidence := ["repeat_zero_differences"]
         protocol_page_index := protocol_row.map (·.page_index)
         protocol_widget_name := protocol_row.map (·.radio_group_name)
         report_page_index := none }, callIdx)
    else
      ({ repeat_id := repeat_id
         difference_id := difference_id
         decision := .FAIL
         matchFlag := false
         confidence := some 1
         reason := "Missing difference in report for active repeat."
         evidence := ["missing_difference_id"] ++
           (if protocol_row = none then ["missing_protocol_widget"] else [])
         protocol_page_index := protocol_row.map (·.page_index)
         protocol_widget_name := protocol_row.map (·.radio_group_name)
         report_page_index := none }, callIdx)
  | some report_block =>
    let paths := cropPaths inp repeat_id difference_id
    let comparison := inp.oracle callIdx paths.1 paths.2.1 paths.2.2.1
      paths.2.2.2
    let decisionReason : Decision × String :=
      match protocol_row with
      | none =>
        (.UNSET,
          "Protocol row mapping missing for this repeat/difference; " ++
            "manual review required.")
      | some _ =>
        if comparison.matchFlag ∧ effectiveConfidence comparison ≥
            inp.threshold then
          (.PASS, comparison.reason)
        else if effectiveConfidence comparison ≥ inp.threshold then
          (.FAIL, comparison.reason)
        else
          (.UNSET, comparison.reason)
    let evidence := ["vlm_compare"] ++
      ([paths.1, paths.2.1, paths.2.2.1, paths.2.2.2].filterMap id) ++
      (if protocol_row = none then ["missing_protocol_widget"] else [])
    ({ repeat_id := repeat_id
       difference_id := difference_id
       decision := decisionReason.1
       matchFlag := comparison.matchFlag
       confidence := comparison.confidence
       reason := decisionReason.2
       evidence := evidence
       protocol_page_index := protocol_row.map (·.page_index)
       protocol_widget_name := protocol_row.map (·.radio_group_name)
       report_page_index := some report_block.page_index }, callIdx + 1)

/-- Process a list of expected keys in order, threading the oracle-call
counter, as the nested loops of `run_reconciliation` do. -/
def processAll (inp : EngineInput) (callIdx : Nat) :
    List (Nat × Nat) → List ReconciliationRow
  | [] => []
  | k :: ks =>
    let step := processKey inp callIdx k.1 k.2
    step.1 :: processAll inp step.2 ks

/-- Python tuple (lexicographic) comparison on keys, as used by
`sorted(report_lookup.keys())`. -/
def keyLe (a b : Nat × Nat) : Bool :=
  decide (a.1 < b.1 ∨ (a.1 = b.1 ∧ a.2 ≤ b.2))

/-- Python's `sorted` is a stable sort; a stable sort's output is uniquely
determined by the comparison and the input order, so it is modelled by the
stable `List.insertionSort`. -/
def pySorted {α : Type} (le : α → α → Bool) (l : List α) : List α :=
  l.insertionSort (fun a b => le a b = true)

/-- The extra-key entries of the report lookup, in the order the loop at
src/vra/reconciliation.py lines 213-230 visits them: the distinct report
keys sorted ascending, those inside the expected universe skipped. Keys of
`build_report_lookup` are distinct, so sorting the entries by key and
looking the key up in the dict agree. -/
def extraEntries (inp : EngineInput) : List ((Nat × Nat) × ReportBlock) :=
  (pySorted (fun a b => keyLe a.1 b.1)
      (build_report_lookup inp.report_blocks)).filter
    (fun kv => decide (kv.1 ∉ expectedKeys))

/-- One informational row per extra report key (lines 217-230). -/
def extraRows (inp : EngineInput) : List ReconciliationRow :=
  (extraEntries inp).map fun kv =>
    { repeat_id := kv.1.1
      difference_id := kv.1.2
      decision := .UNSET
      matchFlag := false
      confidence := some 1
      reason := "Informational: extra difference ID found in report."
      evidence := ["extra_difference_id"]
      protocol_page_index := none
      protocol_widget_name := none
      report_page_index := some kv.2.page_index }

/-- The full ordered row list assembled by `run_reconciliation`
(src/vra/reconciliation.py lines 40-230): the 4×19 expected universe in
repeat-major, difference-minor order, then the extra-key rows. -/
def run_reconciliation (inp : EngineInput) : List ReconciliationRow :=
  processAll inp 0 expectedKeys ++ extraRows inp

/-- The write-back decision dict (src/vra/reconciliation.py lines
237-240): only PASS/FAIL rows contribute, keyed by row key, value the
decision label. -/
def writeBackDecisions (rows : List ReconciliationRow) :
    List ((Nat × Nat) × String) :=
  pyDict (rows.filterMap fun r =>
    if r.decision = .PASS ∨ r.decision = .FAIL then
      some ((r.repeat_id, r.difference_id), r.decision.value)
    else none)

/-- Number of oracle invocations made while processing a list of keys:
one per key that has a report block. -/
def oracleCalls (inp : EngineInput) (ks : List (Nat × Nat)) : Nat :=
  (ks.filter (fun k =>
    (pyGet (build_report_lookup inp.report_blocks) k).isSome)).length

/-- Number of oracle invocations made before the loop reaches key `k`. -/
def oracleCallsBefore (inp : EngineInput) (k : Nat × Nat) : Nat :=
  oracleCalls inp (expectedKeys.takeWhile (fun x => decide (x ≠ k)))

/-- The oracle invocation the engine performs for one key at a given
oracle-call counter, with the four crop paths of that key. -/
def oracleCallAt (inp : EngineInput) (callIdx repeat_id difference_id : Nat) :
    ComparisonResult :=
  let paths := cropPaths inp repeat_id difference_id
  inp.oracle callIdx paths.1 paths.2.1 paths.2.2.1 paths.2.2.2

/-- The comparison result the engine obtains for key `k` when it invokes
the oracle there. -/
def oracleResultAt (inp : EngineInput) (repeat_id difference_id : Nat) :
    ComparisonResult :=
  oracleCallAt inp (oracleCallsBefore inp (repeat_id, difference_id))
    repeat_id difference_id

/-- Concrete protocol row used by witness inputs. -/
def wRow11 : ProtocolRow :=
  { repeat_id := 1
    difference_id := 1
    page_index := 0
    radio_group_name := "4.1-6PassFail18diff001"
    widget_indices := [("PASS", 0), ("FAIL", 1)]
    master_bbox := some (0, 0, 1, 1)
    sample_bbox := some (0, 0, 1, 1) }

/-- Concrete report block used by witness inputs. -/
def wBlock (rid did : Nat) : ReportBlock :=
  { repeat_id := rid
    difference_id := did
    page_index := 0
    block_bbox := (0, 0, 0, 0)
    master_bbox := some (0, 0, 1, 1)
    sample_bbox := some (0, 0, 1, 1) }

/-- Concrete engine input used by witness theorems: one protocol row for
key (1,1); report blocks for keys (1,1), (2,1) and the out-of-universe key
(9,1); no report blocks at all for repeats 3 and 4; a constant oracle. -/
def inp0 : EngineInput :=
  { protocol_rows := [wRow11]
    report_blocks := [wBlock 1 1, wBlock 2 1, wBlock 9 1]
    threshold := 1
    output_dir := "out"
    oracle := fun _ _ _ _ _ =>
      { matchFlag := true, reason := "ok", confidence := some 1 } }

/-- The row `run_reconciliation inp0` produces for key (1, 1). -/
def w1 : ReconciliationRow := (processKey inp0 0 1 1).1

/-- The informational row `run_reconciliation inp0` produces for the
out-of-universe key (9, 1). -/
def w2 : ReconciliationRow :=
  { repeat_id := 9
    difference_id := 1
    decision := .UNSET
    matchFlag := false
    confidence := some 1
    reason := "Informational: extra difference ID found in report."
    evidence := ["extra_difference_id"]
    protocol_page_index := none
    protocol_widget_name := none
    report_page_index := some 0 }

/-- The auto-pass row `run_reconciliation inp0` produces for key (3, 1). -/
def w3 : ReconciliationRow :=
  { repeat_id := 3
    difference_id := 1
    decision := .PASS
    matchFlag := true
    confidence := some 1
    reason := "Auto-pass: report shows zero differences for this repeat."
    evidence := ["repeat_zero_differences"]
    protocol_page_index := none
    protocol_widget_name := none
    report_page_index := none }

/-- The missing-master row `run_reconciliation inp0` produces for key
(2, 1). -/
def w6 : ReconciliationRow :=
  { repeat_id := 2
    difference_id := 1
    decision := .UNSET
    matchFlag := true
    confidence := some 1
    reason := "Protocol row mapping missing for this repeat/difference; " ++
      "manual review required."
    evidence := ["vlm_compare", "out/evidence/r2_d1/report_master.png",
      "out/evidence/r2_d1/report_sample.png", "missing_protocol_widget"]
    protocol_page_index := none
    protocol_widget_name := none
    report_page_index := some 0 }


/-!
Embedding of the oracle client, src/vra/vlm.py. Python standard-library
behaviour that the module merely calls (json.loads / ast.literal_eval on
arbitrary strings, float() on strings, str() rendering) is abstracted into
a `PyLib` parameter; everything written in vlm.py itself (fence stripping,
brace extraction, the three regex fallbacks, coercion, the retry loop) is
embedded concretely. Wall-clock throttling and sleeping are abstracted to
an event trace; the transport (urlopen + json.loads of the response body)
is a function from the request counter to an outcome. Image paths are
identified with their byte content (`List Nat`), and sha256 is an abstract
`hashFn` applied to the exact byte stream the code hashes.
-/

/-- A parsed JSON value (the values `json.loads` can produce). -/
inductive Json where
  | null
  | bool (b : Bool)
  | num (q : ℚ)
  | str (s : String)
  | arr (elems : List Json)
  | obj (fields : List (String × Json))

/-- `x is None` on a parsed JSON value. -/
def Json.isNull : Json → Bool
  | .null => true
  | _ => false

/-- The Python exceptions relevant to `VLMClient.compare`, with their
message abstracted to the carried string. -/
inductive PyErr where
  | jsonDecode (msg : String)
  | valueErr (msg : String)
  | syntaxErr (msg : String)
  | typeErr (msg : String)
  | attrErr (msg : String)
  | indexErr (msg : String)
  | keyErr (msg : String)
deriving DecidableEq, Repr

/-- The exceptions caught by the
`except (json.JSONDecodeError, ValueError, SyntaxError)` clause of
`compare` (src/vra/vlm.py line 343). -/
def catchableParse : PyErr → Bool
  | .jsonDecode _ => true
  | .valueErr _ => true
  | .syntaxErr _ => true
  | _ => false

/-- Message carried by an exception (modelling `f"{exc}"`). -/
def pyErrMsg : PyErr → String
  | .jsonDecode m => m
  | .valueErr m => m
  | .syntaxErr m => m
  | .typeErr m => m
  | .attrErr m => m
  | .indexErr m => m
  | .keyErr m => m

/-- Outcome of one `urlopen` attempt together with `json.loads` of the
response body: an HTTP error with status code, a URLError, a
TimeoutError, or an HTTP success whose body either decodes to a JSON
value or fails to decode (raising json.JSONDecodeError). Error messages
model `str(exc)`. -/
inductive TransportOutcome where
  | httpError (code : Nat) (msg : String)
  | netError (msg : String)
  | timeoutErr (msg : String)
  | success (body : Json)
  | successUndecodable (msg : String)

/-- Standard-library behaviour used by vlm.py, abstracted: `none` models
the library call raising (json.JSONDecodeError, SyntaxError/ValueError,
ValueError respectively). -/
structure PyLib where
  jsonLoads : String → Option Json
  astLiteralEval : String → Option Json
  floatOfStr : String → Option ℚ
  pyStr : Json → String

/-- Configuration of one `VLMClient` (constructor, src/vra/vlm.py lines
145-167): model name, API key (empty string = not configured),
retry count (default 2), cache switch, and the abstract sha256. -/
structure VLMConfig where
  model_name : String
  api_key : String
  max_retries : Nat := 2
  cache_enabled : Bool := true
  hashFn : List Nat → String
  lib : PyLib

/-- Mutable client state: the in-memory cache dict (its on-disk mirror is
write-through and not separately modelled) and the number of network
requests issued so far (which indexes the transport function). -/
structure VLMState where
  cache : List (String × ComparisonResult)
  requestCount : Nat

/-- Observable timing/network events of one `compare` call. `throttle`
records an invocation of `_throttle` (the wall-clock-dependent sleep it
may perform is abstracted), `netRequest` one `urlopen` call,
`backoffSleep s` a `time.sleep(s)` in the retry loop. -/
inductive VLMEvent where
  | throttle
  | netRequest
  | backoffSleep (secs : Nat)
deriving DecidableEq, Repr

/-- Result of one `compare` call: the returned ComparisonResult or the
uncaught Python exception, the client state afterwards, and the event
trace. -/
structure CompareOutcome where
  result : Except PyErr ComparisonResult
  state : VLMState
  events : List VLMEvent

/-- `VLM_CACHE_VERSION = "v2"` from src/vra/vlm.py. -/
def VLM_CACHE_VERSION : String := "v2"

/-- Byte encoding of a string (`str.encode("utf-8")`), modelled by the
code points; identical to UTF-8 on the ASCII strings the code hashes. -/
def pyEncode (s : String) : List Nat := s.data.map (·.toNat)

/-- `VLMClient._cache_key` (src/vra/vlm.py lines 192-204): sha256 over the
version tag, the model name, and the four image byte strings, in exactly
that update order. -/
def cache_key (cfg : VLMConfig) (b1 b2 b3 b4 : List Nat) : String :=
  cfg.hashFn (pyEncode VLM_CACHE_VERSION ++ pyEncode cfg.model_name ++
    b1 ++ b2 ++ b3 ++ b4)

/-- Python truthiness of a parsed JSON value. -/
def Json.isTruthy : Json → Bool
  | .null => false
  | .bool b => b
  | .num q => decide (q ≠ 0)
  | .str s => decide (s ≠ "")
  | .arr l => !l.isEmpty
  | .obj l => !l.isEmpty

/-- `d.get(k, deflt)` on a parsed JSON value: AttributeError unless the
value is an object; duplicate keys in the JSON source keep the last
binding, as Python's dict does. -/
def jsonDictGet (j : Json) (k : String) (deflt : Json) :
    Except PyErr Json :=
  match j with
  | .obj l =>
    match pyGet (pyDict l) k with
    | some v => .ok v
    | none => .ok deflt
  | _ => .error (.attrErr "object has no attribute get")

/-- `x[0]` on a parsed JSON value. -/
def jsonIndex0 : Json → Except PyErr Json
  | .arr (x :: _) => .ok x
  | .arr [] => .error (.indexErr "list index out of range")
  | .str s =>
    match s.data with
    | c :: _ => .ok (.str (String.mk [c]))
    | [] => .error (.indexErr "string index out of range")
  | .obj _ => .error (.keyErr "0")
  | _ => .error (.typeErr "object is not subscriptable")

/-- Iterating a parsed JSON value (`for part in parts`): lists yield their
elements, strings their characters, objects their keys; other values are
not iterable. -/
def jsonIter : Json → Except PyErr (List Json)
  | .arr l => .ok l
  | .str s => .ok (s.data.map fun c => Json.str (String.mk [c]))
  | .obj l => .ok (l.map fun kv => Json.str kv.1)
  | _ => .error (.typeErr "object is not iterable")

/-- `str.strip()` (whitespace trimming on both ends). -/
def pyStrip (s : String) : String :=
  String.mk (((s.data.dropWhile Char.isWhitespace).reverse.dropWhile
    Char.isWhitespace).reverse)

/-- Pattern `p` occurs at the head of `s` (character-list version,
kernel-computable unlike `String.startsWith`). -/
def listStartsWith : List Char → List Char → Bool
  | _, [] => true
  | [], _ :: _ => false
  | a :: as, b :: bs => a = b && listStartsWith as bs

/-- Split a character list on a separator character. -/
def splitOnChar (c : Char) : List Char → List (List Char)
  | [] => [[]]
  | a :: as =>
    match splitOnChar c as with
    | rh :: rt => if a = c then [] :: rh :: rt else (a :: rh) :: rt
    | [] => if a = c then [[], []] else [[a]]

/-- `str.splitlines()` restricted to LF line endings (the only line
endings the strings at hand contain): split on LF without producing a
final empty line for a trailing LF, and `[]` for the empty string. -/
def pySplitlines (s : String) : List String :=
  let parts := splitOnChar '\n' s.data
  let parts := match parts.reverse with
    | [] :: rest => rest.reverse
    | _ => parts
  parts.map String.mk

/-- `"\n".join(lines)`. -/
def pyJoinNL : List String → String
  | [] => ""
  | [a] => a
  | a :: r => a ++ "\n" ++ pyJoinNL r

/-- `_strip_json_fence` from src/vra/vlm.py lines 50-56. -/
def strip_json_fence (text : String) : String :=
  let stripped := pyStrip text
  if listStartsWith stripped.data "```".data then
    let lines := pySplitlines stripped
    if lines.length ≥ 3 && pyStrip (lines.getLastD "") = "```" then
      pyStrip (pyJoinNL ((lines.drop 1).dropLast))
    else stripped
  else stripped

/-- Index of the first occurrence of a character (`str.find`). -/
def firstIdx (c : Char) : List Char → Option Nat
  | [] => none
  | a :: as =>
    if a = c then some 0
    else match firstIdx c as with
      | some i => some (i + 1)
      | none => none

/-- Index of the last occurrence of a character (`str.rfind`). -/
def lastIdx (c : Char) (l : List Char) : Option Nat :=
  match firstIdx c l.reverse with
  | some i => some (l.length - 1 - i)
  | none => none

/-- Case-insensitive literal match at the head; returns the rest. -/
def matchCI : List Char → List Char → Option (List Char)
  | [], s => some s
  | _ :: _, [] => none
  | p :: ps, c :: cs =>
    if p.toLower = c.toLower then matchCI ps cs else none

/-- Consume one optional quote character (`["\']?`). -/
def optQuote : List Char → List Char
  | [] => []
  | c :: cs => if c = '"' ∨ c = '\'' then cs else c :: cs

/-- Skip `\s*`. -/
def skipWS (l : List Char) : List Char :=
  l.dropWhile Char.isWhitespace

/-- Natural number denoted by a digit run. -/
def natOfDigits (l : List Char) : Nat :=
  l.foldl (fun acc c => acc * 10 + (c.toNat - 48)) 0

/-- Leftmost match of the regex `[0-9]*\.?[0-9]+` anchored at the head,
returning the matched numeric literal's value (float() of the group,
exact in the ℚ idealisation). -/
def parseNumTok (l : List Char) : Option ℚ :=
  let d1 := l.takeWhile Char.isDigit
  let rest1 := l.dropWhile Char.isDigit
  if d1 ≠ [] then
    match rest1 with
    | '.' :: r2 =>
      let d2 := r2.takeWhile Char.isDigit
      if d2 ≠ [] then
        some (mkRat (natOfDigits d1 * 10 ^ d2.length + natOfDigits d2)
          (10 ^ d2.length))
      else some (mkRat (natOfDigits d1) 1)
    | _ => some (mkRat (natOfDigits d1) 1)
  else
    match l with
    | '.' :: r2 =>
      let d2 := r2.takeWhile Char.isDigit
      if d2 ≠ [] then some (mkRat (natOfDigits d2) (10 ^ d2.length))
      else none
    | _ => none

/-- Anchored attempt of `["\']?match["\']?\s*:\s*(true|false)`
(IGNORECASE), returning the captured boolean. -/
def tryMatchTokAt (l : List Char) : Option Bool :=
  match matchCI "match".data (optQuote l) with
  | none => none
  | some l1 =>
    match skipWS (optQuote l1) with
    | ':' :: l2 =>
      match matchCI "true".data (skipWS l2) with
      | some _ => some true
      | none =>
        match matchCI "false".data (skipWS l2) with
        | some _ => some false
        | none => none
    | _ => none

/-- `re.search` of the `match` fallback pattern: leftmost anchored match. -/
def scanMatchTok : List Char → Option Bool
  | [] => none
  | a :: as =>
    match tryMatchTokAt (a :: as) with
    | some b => some b
    | none => scanMatchTok as

/-- Anchored attempt of `["\']?confidence["\']?\s*:\s*([0-9]*\.?[0-9]+)`
(IGNORECASE). -/
def tryConfTokAt (l : List Char) : Option ℚ :=
  match matchCI "confidence".data (optQuote l) with
  | none => none
  | some l1 =>
    match skipWS (optQuote l1) with
    | ':' :: l2 => parseNumTok (skipWS l2)
    | _ => none

/-- `re.search` of the `confidence` fallback pattern. -/
def scanConfTok : List Char → Option ℚ
  | [] => none
  | a :: as =>
    match tryConfTokAt (a :: as) with
    | some q => some q
    | none => scanConfTok as

/-- Anchored attempt of `["\']?reason["\']?\s*:\s*["\']([^"\']*)`
(IGNORECASE), returning the captured text. -/
def tryReasonTokAt (l : List Char) : Option String :=
  match matchCI "reason".data (optQuote l) with
  | none => none
  | some l1 =>
    match skipWS (optQuote l1) with
    | ':' :: l2 =>
      match skipWS l2 with
      | c :: l3 =>
        if c = '"' ∨ c = '\'' then
          some (String.mk (l3.takeWhile fun d => ¬(d = '"' ∨ d = '\'')))
        else none
      | [] => none
    | _ => none

/-- `re.search` of the `reason` fallback pattern. -/
def scanReasonTok : List Char → Option String
  | [] => none
  | a :: as =>
    match tryReasonTokAt (a :: as) with
    | some s => some s
    | none => scanReasonTok as

/-- The `partial` dict built by the last-resort field scrub of
`_parse_model_json` (src/vra/vlm.py lines 81-103). -/
def partialScrub (cleaned : List Char) : List (String × Json) :=
  (match scanMatchTok cleaned with
    | some b => [("match", Json.bool b)]
    | none => []) ++
  (match scanConfTok cleaned with
    | some q => [("confidence", Json.num q)]
    | none => []) ++
  (match scanReasonTok cleaned with
    | some s => [("reason", Json.str s)]
    | none => [])

/-- The post-parse shaping of `_parse_model_json` (lines 105-109): unwrap
a nonempty list whose first element is a dict, then require a dict. -/
def finishParse (parsed : Json) : Except PyErr (List (String × Json)) :=
  let parsed := match parsed with
    | .arr (x :: xs) =>
      match x with
      | .obj o => Json.obj o
      | _ => Json.arr (x :: xs)
    | other => other
  match parsed with
  | .obj o => .ok o
  | _ => .error (.valueErr "Model response JSON must be an object.")

/-- `_parse_model_json` from src/vra/vlm.py lines 59-109. -/
def parse_model_json (lib : PyLib) (text : String) :
    Except PyErr (List (String × Json)) :=
  let cleaned := strip_json_fence text
  match lib.jsonLoads cleaned with
  | some parsed => finishParse parsed
  | none =>
    let braceCand : Option Json :=
      match firstIdx '{' cleaned.data, lastIdx '}' cleaned.data with
      | some s, some e =>
        if s < e then
          let candidate := String.mk ((cleaned.data.drop s).take (e + 1 - s))
          match lib.jsonLoads candidate with
          | some p => some p
          | none => lib.astLiteralEval candidate
        else none
      | _, _ => none
    match braceCand with
    | some p => finishParse p
    | none =>
      match lib.astLiteralEval cleaned with
      | some p => finishParse p
      | none =>
        let part := partialScrub cleaned.data
        if (pyDict part).find? (fun kv => decide (kv.1 = "match"))
            |>.isSome then
          .ok part
        else .error (.jsonDecode "Expecting value")

/-- `bool(x)` on a parsed JSON value. -/
def pyBool (j : Json) : Bool := j.isTruthy

/-- `str.lower()`. -/
def pyLower (s : String) : String := String.mk (s.data.map Char.toLower)

/-- `float(x)` on a parsed JSON value (None excluded by the caller). -/
def pyFloat (lib : PyLib) : Json → Except PyErr ℚ
  | .num q => .ok q
  | .bool b => .ok (if b then 1 else 0)
  | .str s =>
    match lib.floatOfStr s with
    | some q => .ok q
    | none => .error (.valueErr "could not convert string to float")
  | _ => .error (.typeErr "float() argument must be a string or a number")

/-- `_coerce_comparison_payload` from src/vra/vlm.py lines 112-139,
composed with `ComparisonResult.model_validate` (the identity on the
well-typed dict it builds). -/
def coerce_comparison_payload (lib : PyLib)
    (parsed : List (String × Json)) : Except PyErr ComparisonResult := do
  let normalized := pyDict (parsed.map fun kv => (pyLower kv.1, kv.2))
  match pyGet normalized "match" with
  | none => .error (.valueErr "Model response missing match field.")
  | some raw_match => do
    let match_value ← (match raw_match with
      | .bool b => Except.ok b
      | .str s =>
        let lowered := pyLower (pyStrip s)
        if lowered = "true" ∨ lowered = "yes" ∨ lowered = "1" then
          Except.ok true
        else if lowered = "false" ∨ lowered = "no" ∨ lowered = "0" then
          Except.ok false
        else Except.error (.valueErr "Model response match value is not boolean.")
      | other => Except.ok (pyBool other))
    let reason := (pyGet normalized "reason").getD Json.null
    let confidence := (pyGet normalized "confidence").getD Json.null
    let confVal ← (match confidence with
      | Json.null => Except.ok none
      | other => do
        let q ← pyFloat lib other
        Except.ok (some q))
    Except.ok
      { matchFlag := match_value
        reason :=
          if reason.isNull = false ∧ pyStrip (lib.pyStr reason) ≠ "" then
            lib.pyStr reason
          else "Model response did not include reason."
        confidence := confVal }

/-- Loop body of `_extract_response_text` (src/vra/vlm.py lines 28-32). -/
def extractTextLoop : List Json → Except PyErr String
  | [] => .ok ""
  | p :: ps => do
    let t ← jsonDictGet p "text" Json.null
    match t with
    | .str s => if pyStrip s ≠ "" then .ok (pyStrip s) else extractTextLoop ps
    | _ => extractTextLoop ps

/-- `_extract_response_text` from src/vra/vlm.py lines 23-32. -/
def extract_response_text (payload : Json) : Except PyErr String := do
  let candidates ← jsonDictGet payload "candidates" (Json.arr [])
  if candidates.isTruthy = false then .ok ""
  else do
    let c0 ← jsonIndex0 candidates
    let content ← jsonDictGet c0 "content" (Json.obj [])
    let parts ← jsonDictGet content "parts" (Json.arr [])
    let partsList ← jsonIter parts
    extractTextLoop partsList

/-- Loop body of `_extract_candidate_obj` (src/vra/vlm.py lines 40-47). -/
def extractCandidateLoop : List Json → Except PyErr (Option (List (String × Json)))
  | [] => .ok none
  | p :: ps => do
    let t ← jsonDictGet p "text" Json.null
    match t with
    | .str _ => extractCandidateLoop ps
    | _ => do
      let j ← jsonDictGet p "json" Json.null
      match j with
      | .obj o => .ok (some o)
      | _ => extractCandidateLoop ps

/-- `_extract_candidate_obj` from src/vra/vlm.py lines 35-47. -/
def extract_candidate_obj (payload : Json) :
    Except PyErr (Option (List (String × Json))) := do
  let candidates ← jsonDictGet payload "candidates" (Json.arr [])
  if candidates.isTruthy = false then .ok none
  else do
    let c0 ← jsonIndex0 candidates
    let content ← jsonDictGet c0 "content" (Json.obj [])
    let parts ← jsonDictGet content "parts" (Json.arr [])
    let partsList ← jsonIter parts
    extractCandidateLoop partsList

/-- The fixed result for absent report crops (src/vra/vlm.py
lines 220-225). -/
def missingReportResult : ComparisonResult :=
  { matchFlag := false
    reason := "Missing report crops for this repeat/difference."
    confidence := some 0 }

/-- The fixed result for absent protocol crops (lines 226-231). -/
def missingProtocolResult : ComparisonResult :=
  { matchFlag := false
    reason := "Missing protocol crops for this repeat/difference."
    confidence := some 0 }

/-- The fixed result for a missing API key (lines 233-238). -/
def noKeyResult : ComparisonResult :=
  { matchFlag := false
    reason := "Gemini API key not configured (set GEMINI_API_KEY)."
    confidence := some 0 }

/-- The fixed result for an empty model payload (lines 313-318). -/
def noTextResult : ComparisonResult :=
  { matchFlag := false
    reason := "Gemini returned no text payload for comparison."
    confidence := some 0 }

/-- The parsing-failure result (lines 343-348). -/
def parseFailedResult (msg : String) : ComparisonResult :=
  { matchFlag := false
    reason := "Gemini response parsing failed: " ++ msg
    confidence := some 0 }

/-- `f"{x}"` of an optional message (None prints as "None"). -/
def pyShowOpt : Option String → String
  | none => "None"
  | some m => m

/-- The request-failure result returned after the loop (lines 350-354). -/
def requestFailedResult (lastError : Option String) : ComparisonResult :=
  { matchFlag := false
    reason := "Gemini API request failed: " ++ pyShowOpt lastError
    confidence := some 0 }

/-- `clamp` of the confidence into [0,1] when present (lines 323-324). -/
def clampConfidence (cr : ComparisonResult) : ComparisonResult :=
  match cr.confidence with
  | some q => { cr with confidence := some (max 0 (min 1 q)) }
  | none => cr

/-- The success-path payload processing of `compare` (src/vra/vlm.py
lines 310-328, without the cache write): extract text and structured
parts, parse, coerce, clamp. An `Except.error` is an uncaught-in-this-
block Python exception, which `compare` either converts to a
parsing-failed result (if listed in the except clause) or propagates. -/
def handleBody (lib : PyLib) (body : Json) :
    Except PyErr ComparisonResult := do
  let model_text ← extract_response_text body
  let parsed_obj? ← extract_candidate_obj body
  match parsed_obj? with
  | none =>
    if model_text = "" then .ok noTextResult
    else do
      let pairs ← parse_model_json lib model_text
      let cr ← coerce_comparison_payload lib pairs
      .ok (clampConfidence cr)
  | some pairs => do
    let cr ← coerce_comparison_payload lib pairs
    .ok (clampConfidence cr)

/-- Message of a failed transport outcome (`str(exc)`). -/
def outcomeMsg : TransportOutcome → String
  | .httpError _ m => m
  | .netError m => m
  | .timeoutErr m => m
  | .success _ => ""
  | .successUndecodable m => m

/-- The retry loop of `compare` (src/vra/vlm.py lines 303-354),
`for attempt in range(self.max_retries + 1)`, recursing on the remaining
iteration count; falling out of the loop (or breaking) returns the
request-failed result carrying the last error. -/
def compareLoop (cfg : VLMConfig) (transport : Nat → TransportOutcome)
    (key : String) :
    Nat → Nat → VLMState → List VLMEvent → Option String → CompareOutcome
  | 0, _, st, events, lastError =>
    ⟨.ok (requestFailedResult lastError), st, events⟩
  | fuel + 1, attempt, st, events, _ =>
    let events := events ++ [.throttle, .netRequest]
    let st' : VLMState := { st with requestCount := st.requestCount + 1 }
    match transport st.requestCount with
    | .successUndecodable msg =>
      ⟨.ok (parseFailedResult msg), st', events⟩
    | .success body =>
      match handleBody cfg.lib body with
      | .ok result =>
        let st'' := if cfg.cache_enabled then
          { st' with cache := pyDictInsert st'.cache key result } else st'
        ⟨.ok result, st'', events⟩
      | .error e =>
        if catchableParse e then
          ⟨.ok (parseFailedResult (pyErrMsg e)), st', events⟩
        else ⟨.error e, st', events⟩
    | .httpError code msg =>
      if code = 429 ∧ attempt < cfg.max_retries then
        compareLoop cfg transport key fuel (attempt + 1) st'
          (events ++ [.backoffSleep (2 ^ attempt)]) (some msg)
      else ⟨.ok (requestFailedResult (some msg)), st', events⟩
    | .netError msg =>
      if attempt < cfg.max_retries then
        compareLoop cfg transport key fuel (attempt + 1) st'
          (events ++ [.backoffSleep (2 ^ attempt)]) (some msg)
      else ⟨.ok (requestFailedResult (some msg)), st', events⟩
    | .timeoutErr msg =>
      if attempt < cfg.max_retries then
        compareLoop cfg transport key fuel (attempt + 1) st'
          (events ++ [.backoffSleep (2 ^ attempt)]) (some msg)
      else ⟨.ok (requestFailedResult (some msg)), st', events⟩

/-- `VLMClient.compare` (src/vra/vlm.py lines 213-354). Image arguments
carry their byte content (`None` = the path argument was None). -/
def compare (cfg : VLMConfig) (st : VLMState)
    (pq_master pq_sample report_master report_sample : Option (List Nat))
    (transport : Nat → TransportOutcome) : CompareOutcome :=
  match pq_master, pq_sample, report_master, report_sample with
  | _, _, none, _ => ⟨.ok missingReportResult, st, []⟩
  | _, _, _, none => ⟨.ok missingReportResult, st, []⟩
  | none, _, _, _ => ⟨.ok missingProtocolResult, st, []⟩
  | _, none, _, _ => ⟨.ok missingProtocolResult, st, []⟩
  | some b1, some b2, some b3, some b4 =>
    if cfg.api_key = "" then ⟨.ok noKeyResult, st, []⟩
    else
      let key := cache_key cfg b1 b2 b3 b4
      if cfg.cache_enabled then
        match pyGet st.cache key with
        | some cached => ⟨.ok cached, st, []⟩
        | none =>
          compareLoop cfg transport key (cfg.max_retries + 1) 0 st [] none
      else compareLoop cfg transport key (cfg.max_retries + 1) 0 st [] none

/-- Outcomes the retry loop retries on (when attempts remain): HTTP 429,
URLError, TimeoutError. -/
def retryable : TransportOutcome → Bool
  | .httpError code _ => code = 429
  | .netError _ => true
  | .timeoutErr _ => true
  | _ => false

/-- Event trace of `i` retried attempts starting at attempt number
`attempt0`: throttle, request, then the backoff sleep `2 ^ attempt`,
for each retried attempt in turn. -/
def retryEvents : Nat → Nat → List VLMEvent
  | _, 0 => []
  | attempt0, i + 1 =>
    [.throttle, .netRequest, .backoffSleep (2 ^ attempt0)] ++
      retryEvents (attempt0 + 1) i

/-- Model text whose `confidence` field is a JSON list: json.loads
succeeds, `match` coerces, but `float([])` raises TypeError, which the
except clause of `compare` does not list. -/
def c4Text : String := "\x7b\"match\": true, \"confidence\": []\x7d"

/-- `json.loads` of `c4Text`. -/
def c4Parsed : Json := .obj [("match", .bool true), ("confidence", .arr [])]

/-- A well-formed Gemini response whose single part carries `c4Text`. -/
def c4Body : Json :=
  .obj [("candidates", .arr [.obj [("content",
    .obj [("parts", .arr [.obj [("text", .str c4Text)]])])]])]

/-- Model text that parses and coerces cleanly. -/
def okText : String :=
  "\x7b\"match\": true, \"reason\": \"ok\", \"confidence\": 1\x7d"

/-- `json.loads` of `okText`. -/
def okParsed : Json :=
  .obj [("match", .bool true), ("reason", .str "ok"),
    ("confidence", .num 1)]

/-- A well-formed Gemini response carrying `okText`. -/
def okBody : Json :=
  .obj [("candidates", .arr [.obj [("content",
    .obj [("parts", .arr [.obj [("text", .str okText)]])])]])]

/-- Model text no parsing stage can make sense of. -/
def badText : String := "nope"

/-- A well-formed Gemini response carrying `badText`. -/
def badBody : Json :=
  .obj [("candidates", .arr [.obj [("content",
    .obj [("parts", .arr [.obj [("text", .str badText)]])])]])]

/-- Concrete standard-library behaviour for witnesses: json.loads knows
the two concrete texts above, ast.literal_eval and float() always raise,
str() renders strings as themselves. -/
def lib0 : PyLib :=
  { jsonLoads := fun s =>
      if s = c4Text then some c4Parsed
      else if s = okText then some okParsed
      else none
    astLiteralEval := fun _ => none
    floatOfStr := fun _ => none
    pyStr := fun j => match j with
      | .str s => s
      | _ => "" }

/-- Concrete client configuration for witnesses. -/
def cfg7 : VLMConfig :=
  { model_name := "gemini-2.0-flash"
    api_key := "k"
    max_retries := 2
    cache_enabled := true
    hashFn := fun _ => "h"
    lib := lib0 }

/-- `cfg7` with no retries, for the C5 counterexample. -/
def cfg5x : VLMConfig :=
  { cfg7 with max_retries := 0 }

/-- Fresh client state. -/
def st0 : VLMState := { cache := [], requestCount := 0 }

/-- Transport that always succeeds with `c4Body`. -/
def tr4 : Nat → TransportOutcome := fun _ => .success c4Body

/-- Transport that always succeeds with `okBody`. -/
def tr5 : Nat → TransportOutcome := fun _ => .success okBody

/-- The comparison result `okBody` coerces to. -/
def okResult : ComparisonResult :=
  { matchFlag := true, reason := "ok", confidence := some 1 }

/-- Transport: one timeout, then an unparseable success. -/
def tr7a : Nat → TransportOutcome := fun n =>
  if n = 0 then .timeoutErr "timed out" else .success badBody

/-- Transport: three transient failures in a row. -/
def tr7b : Nat → TransportOutcome := fun n =>
  if n = 0 then .netError "conn"
  else if n = 1 then .httpError 429 "rate"
  else .timeoutErr "slow"

/-- Transport: HTTP 429 then HTTP 500. -/
def tr7c : Nat → TransportOutcome := fun n =>
  if n = 0 then .httpError 429 "rate" else .httpError 500 "boom"

/-- Transport that always times out. -/
def trTimeout : Nat → TransportOutcome := fun _ => .timeoutErr "timed out"

/-!
Embedding of the protocol-PDF extractor and write-back,
src/vra/pdf_protocol.py. A PDF page is abstracted to the data the module
reads from fitz: its form widgets (field name, rectangle, button states,
current field value), whether its text contains the table header, its
`search_for` results, and its dimensions. Anchor-rect truthiness is
modelled by presence (`search_for` returning at least one rect). -/

/-- A form widget as pdf_protocol.py uses it: `field_name`, `rect`,
`button_states()["normal"]`, and the current `field_value` (the write-back
target). -/
structure PWidget where
  field_name : String
  rect : Rect
  normalStates : List String
  field_value : String
deriving DecidableEq, Repr

/-- A protocol-document page. -/
structure PPage where
  widgets : List PWidget
  hasHeader : Bool
  searchRects : String → List Rect
  width : ℚ
  height : ℚ

/-- Rectangle accessors. -/
def rectX0 (r : Rect) : ℚ := r.1

/-- Rectangle accessors. -/
def rectY0 (r : Rect) : ℚ := r.2.1

/-- Rectangle accessors. -/
def rectX1 (r : Rect) : ℚ := r.2.2.1

/-- Rectangle accessors. -/
def rectY1 (r : Rect) : ℚ := r.2.2.2

/-- `TABLE_HEADER` from src/vra/pdf_protocol.py. -/
def TABLE_HEADER : String := "4.1-6 GRA-BAR-BRL-PQ Difference TABLE III"

/-- `WIDGET_PATTERN` from src/vra/pdf_protocol.py. -/
def WIDGET_PATTERN : String := "PassFail18diff"

/-- `_extract_export_value` (lines 18-23): first selectable non-"Off"
state, else "Off". -/
def extract_export_value (w : PWidget) : String :=
  match w.normalStates.find? (fun s => decide (s ≠ "Off")) with
  | some s => s
  | none => "Off"

/-- `_safe_first_rect` (lines 26-30). -/
def safe_first_rect (page : PPage) (label : String) : Option Rect :=
  match page.searchRects label with
  | [] => none
  | r :: _ => some r

/-- `_column_bounds` (lines 33-47): anchor-derived column bounds with the
documented hard-coded fallback. -/
def column_bounds (page : PPage) : (ℚ × ℚ) × (ℚ × ℚ) :=
  match safe_first_rect page "MASTER", safe_first_rect page "SAMPLE",
      safe_first_rect page "PASS/FAIL" with
  | some m, some s, some pf =>
    let master_left := max 0 (rectX0 m - 65)
    let master_right := (rectX1 m + rectX0 s) / 2
    let sample_left := master_right
    let sample_right := min page.width ((rectX1 s + rectX0 pf) / 2)
    ((master_left, master_right), (sample_left, sample_right))
  | _, _, _ => ((90, 290), (290, 490))

/-- `pat` occurs somewhere in `s` (Python `pat in s`). -/
def containsSub (pat : List Char) : List Char → Bool
  | [] => pat.isEmpty
  | a :: as => listStartsWith (a :: as) pat || containsSub pat as

/-- The search of `FIELD_NUMBER_RE = re.compile(r"PassFail18diff(\d+)")`:
leftmost occurrence of the literal followed by at least one digit, the
greedy digit run as the group. -/
def fieldNumSearch : List Char → Option Nat
  | [] => none
  | a :: as =>
    if listStartsWith (a :: as) WIDGET_PATTERN.data then
      let rest := (a :: as).drop WIDGET_PATTERN.data.length
      let ds := rest.takeWhile Char.isDigit
      if ds.isEmpty then fieldNumSearch as else some (natOfDigits ds)
    else fieldNumSearch as

/-- `_field_sort_number` (lines 50-54). -/
def field_sort_number (field_name : String) : Nat :=
  match fieldNumSearch field_name.data with
  | some n => n
  | none => 10 ^ 9

/-- Minimum of a list of rationals (`min(ys)`; total with junk 0 on []). -/
def listMin : List ℚ → ℚ
  | [] => 0
  | a :: as => as.foldl min a

/-- Maximum of a list of rationals (`max(ys)`; total with junk 0 on []). -/
def listMax : List ℚ → ℚ
  | [] => 0
  | a :: as => as.foldl max a

/-- One entry of `parsed_rows` (lines 87-110): the sort key
(`row_top`, field number), the group's name, its widget-index dict, the
column bounds, and the group's widget y-extents (used again for
`row_bottom` after sorting). -/
structure PGroup where
  row_top : ℚ
  sortNum : Nat
  field_name : String
  widget_indices : List (String × Nat)
  master_col : ℚ × ℚ
  sample_col : ℚ × ℚ
  ys : List ℚ
deriving DecidableEq, Repr

/-- Sort order of `parsed_rows.sort(key=lambda item: (item[0], item[1]))`:
Python tuple comparison on (row_top, field number). -/
def groupLe (a b : PGroup) : Bool :=
  decide (a.row_top < b.row_top ∨
    (a.row_top = b.row_top ∧ a.sortNum ≤ b.sortNum))

/-- The sorted `parsed_rows` of one page (lines 74-112): skip pages
without widgets, filter widgets whose name embeds both the pattern token
and the test id, group by exact name in first-seen order, build each
group's data, sort by (row_top, field number). -/
def pageGroups (test_id : String) (page : PPage) : List PGroup :=
  if page.widgets.isEmpty then []
  else
    let filtered := (page.widgets.enum).filter fun iw =>
      containsSub WIDGET_PATTERN.data iw.2.field_name.data &&
        containsSub test_id.data iw.2.field_name.data
    let names := (filtered.map fun iw => iw.2.field_name).eraseDups
    let parsed := names.map fun name =>
      let entries := filtered.filter fun iw =>
        decide (iw.2.field_name = name)
      let cols := column_bounds page
      let widget_indices := pyDict (entries.filterMap fun iw =>
        let e := extract_export_value iw.2
        if e ≠ "Off" then some (e, iw.1) else none)
      let ys := entries.flatMap fun iw =>
        [rectY0 iw.2.rect, rectY1 iw.2.rect]
      let row_top := if ys ≠ [] then max 0 (listMin ys - 2) else 0
      { row_top := row_top
        sortNum := field_sort_number name
        field_name := name
        widget_indices := widget_indices
        master_col := cols.1
        sample_col := cols.2
        ys := ys }
    pySorted groupLe parsed

/-- The row built for record number `n` from one sorted group
(lines 121-151). -/
def mkRow (page_idx : Nat) (pageH : ℚ) (n : Nat) (g : PGroup) :
    ProtocolRow :=
  let row_bottom := if g.ys ≠ [] then min pageH (listMax g.ys + 2)
    else g.row_top
  { repeat_id := (n - 1) / 19 + 1
    difference_id := (n - 1) % 19 + 1
    page_index := page_idx
    radio_group_name := g.field_name
    widget_indices := g.widget_indices
    master_bbox := some (g.master_col.1, g.row_top, g.master_col.2,
      row_bottom)
    sample_bbox := some (g.sample_col.1, g.row_top, g.sample_col.2,
      row_bottom) }

/-- Rows of one page's sorted groups, numbering from `counter + 1`. -/
def buildRowsFromGroups (page_idx : Nat) (pageH : ℚ) :
    Nat → List PGroup → List ProtocolRow
  | _, [] => []
  | counter, g :: gs =>
    mkRow page_idx pageH (counter + 1) g ::
      buildRowsFromGroups page_idx pageH (counter + 1) gs

/-- Rows of all candidate pages, threading the global `row_counter`. -/
def buildAllRows (test_id : String) :
    Nat → List (Nat × PPage) → List ProtocolRow
  | _, [] => []
  | counter, (i, p) :: ps =>
    let gs := pageGroups test_id p
    buildRowsFromGroups i p.height counter gs ++
      buildAllRows test_id (counter + gs.length) ps

/-- `extract_protocol_rows` from src/vra/pdf_protocol.py lines 57-157. -/
def extract_protocol_rows (doc : List PPage) (test_id : String) :
    Except String (List ProtocolRow) :=
  if test_id ≠ "4.1-6" then
    .error ("Unsupported test-id. MVP supports only 4.1-6.")
  else
    match (doc.enum.filter fun ip => ip.2.hasHeader).map Prod.fst with
    | [] => .error "Could not find table header in protocol PDF."
    | h :: _ =>
      let candidate_pages := doc.enum.filter fun ip => decide (h ≤ ip.1)
      let rows := buildAllRows test_id 0 candidate_pages
      if rows.isEmpty then
        .error "No matching 4.1-6 radio groups were discovered in protocol PDF."
      else .ok rows

/-- The widget update the write-back loop performs for one decision entry
on one widget of the looked-up row's page (lines 199-205): set the field
value when the name matches and the export value is offered. -/
def updWidget (group_name export_value : String) (w : PWidget) : PWidget :=
  if w.field_name = group_name ∧ export_value ∈ w.normalStates then
    { w with field_value := export_value }
  else w

/-- In-place page mutation `doc[i]`. -/
def setPage (doc : List PPage) (i : Nat) (f : PPage → PPage) :
    List PPage :=
  match doc, i with
  | [], _ => []
  | p :: ps, 0 => f p :: ps
  | p :: ps, n + 1 => p :: setPage ps n f

/-- Application of one decisions entry (lines 193-205): look the key up,
skip silently when absent, else update every matching widget of that
row's page. -/
def applyOne (row_lookup : List ((Nat × Nat) × ProtocolRow))
    (doc : List PPage) (key : Nat × Nat) (export_value : String) :
    List PPage :=
  match pyGet row_lookup key with
  | none => doc
  | some row =>
    setPage doc row.page_index fun page =>
      { page with widgets :=
          page.widgets.map (updWidget row.radio_group_name export_value) }

/-- `apply_pass_fail_value` from src/vra/pdf_protocol.py lines 179-210:
re-extract the rows from the same document, then apply each decision
entry in order. The document save is abstracted to returning the mutated
document. -/
def apply_pass_fail_value (doc : List PPage)
    (decisions : List ((Nat × Nat) × String)) (test_id : String) :
    Except String (List PPage) :=
  if test_id ≠ "4.1-6" then
    .error ("Unsupported test-id. MVP supports only 4.1-6.")
  else do
    let rows ← extract_protocol_rows doc test_id
    let row_lookup := pyDict (rows.map fun r =>
      ((r.repeat_id, r.difference_id), r))
    .ok (decisions.foldl (fun d kv => applyOne row_lookup d kv.1 kv.2) doc)

/-- The widget at page `pi`, position `wi`. -/
def widgetAt (doc : List PPage) (pi wi : Nat) : Option PWidget :=
  match doc[pi]? with
  | some p => p.widgets[wi]?
  | none => none

/-- The vertical position a protocol row was sorted by (`row_top`, the y0
of its bboxes). -/
def rowTop (r : ProtocolRow) : ℚ :=
  match r.master_bbox with
  | some b => rectY0 b
  | none => 0

/-- Sort key comparison the per-page group sort uses, read off an
extracted row. -/
def rowSortLe (r r' : ProtocolRow) : Bool :=
  decide (rowTop r < rowTop r' ∨
    (rowTop r = rowTop r' ∧
      field_sort_number r.radio_group_name ≤
        field_sort_number r'.radio_group_name))

/-!
Embedding of the report-PDF extractor, src/vra/pdf_report.py. A report
page is abstracted to the regex results the module reads from its text
(`RE_REPEAT.search`, i.e. the first "Repeat ID n" match if any, and the
`RE_DIFF.finditer` difference-id matches in order), its `search_for`
results, and its dimensions. -/

/-- A report-document page. -/
structure RPage where
  repeatMatch : Option Nat
  diffMatches : List Nat
  searchRects : String → List Rect
  width : ℚ
  height : ℚ

/-- `_first_rect_for_text` from src/vra/pdf_report.py lines 15-20. -/
def first_rect_for_text (page : RPage) (needle : String) : Rect :=
  match page.searchRects needle with
  | [] => (0, 0, 0, 0)
  | r :: _ => r

/-- Python `current_repeat or 1`: None and 0 are both falsy. -/
def pyOr1 : Option Nat → Nat
  | none => 1
  | some n => if n = 0 then 1 else n

/-- Blocks of one page's sorted difference labels (lines 45-68), with the
lookahead to the next label's anchor. -/
def mkReportBlocks (page_idx : Nat) (page : RPage)
    (current : Option Nat) : List (Nat × Rect) → List ReportBlock
  | [] => []
  | (did, bbox) :: rest =>
    let top := max 0 (rectY0 bbox + 22)
    let next_top := match rest with
      | (_, b2) :: _ => rectY0 b2
      | [] => page.height - 5
    let bottom := max (top + 10) (next_top - 8)
    let mid_x := page.width / 2
    let left_margin := (8 : ℚ)
    let right_margin := page.width - 8
    { repeat_id := pyOr1 current
      difference_id := did
      page_index := page_idx
      block_bbox := bbox
      master_bbox := some (left_margin, top, mid_x - 6, bottom)
      sample_bbox := some (mid_x + 6, top, right_margin, bottom) } ::
      mkReportBlocks page_idx page current rest

/-- One page's blocks (lines 30-68): update the sticky repeat context from
the page's first section-marker match, collect and sort the page's
difference labels by anchor y0, then build the blocks. -/
def reportBlocksOfPage (page_idx : Nat) (page : RPage)
    (current : Option Nat) : List ReportBlock :=
  let page_diffs := page.diffMatches.map fun did =>
    (did, first_rect_for_text page ("Difference ID: " ++ toString did))
  let sorted := pySorted
    (fun a b : Nat × Rect => decide (rectY0 a.2 ≤ rectY0 b.2)) page_diffs
  mkReportBlocks page_idx page current sorted

/-- The sticky-context update of one page: `if repeat_match:
current_repeat = int(...)` (src/vra/pdf_report.py lines 33-35). -/
def updRepeat (current : Option Nat) (p : RPage) : Option Nat :=
  match p.repeatMatch with
  | some n => some n
  | none => current

/-- The page scan of `extract_report_blocks`, threading the page index and
the sticky current repeat id. -/
def extractReportGo : Nat → Option Nat → List RPage → List ReportBlock
  | _, _, [] => []
  | i, current, p :: ps =>
    reportBlocksOfPage i p (updRepeat current p) ++
      extractReportGo (i + 1) (updRepeat current p) ps

/-- `extract_report_blocks` from src/vra/pdf_report.py lines 23-72. -/
def extract_report_blocks (doc : List RPage) : List ReportBlock :=
  extractReportGo 0 none doc

/-- The sticky repeat context in effect while page `i`'s blocks are
built: the last section-marker number seen on pages 0..i, if any. -/
def markerCtx (doc : List RPage) (i : Nat) : Option Nat :=
  (doc.take (i + 1)).foldl updRepeat none

/-- Concrete widget for the extractor witnesses. -/
def pw (name : String) (y : ℚ) : PWidget :=
  { field_name := name
    rect := (0, y, 1, y + 1)
    normalStates := ["Off", "PASS"]
    field_value := "Off" }

/-- Concrete protocol page: two groups, the lower-numbered one further
down in field order but higher on the page. -/
def page9 : PPage :=
  { widgets := [pw "4.1-6PassFail18diff2" 50, pw "4.1-6PassFail18diff1" 10]
    hasHeader := true
    searchRects := fun _ => []
    width := 100
    height := 200 }

/-- Concrete protocol document for witnesses. -/
def doc9 : List PPage := [page9]

/-- The rows `extract_protocol_rows doc9 "4.1-6"` yields. -/
def rows9 : List ProtocolRow :=
  match extract_protocol_rows doc9 "4.1-6" with
  | .ok rs => rs
  | .error _ => []

/-- Concrete report document for the C10 witness: its only page carries
the section marker "Repeat ID 0" and one difference label. -/
def doc10 : List RPage :=
  [{ repeatMatch := some 0
     diffMatches := [3]
     searchRects := fun _ => []
     width := 10
     height := 10 }]

/-- The document produced by running write-back on `doc9` with the
decisions of the `inp0` engine run (key (1,1) decides PASS there, and
`rows9` maps (1,1) to the group "4.1-6PassFail18diff1" on page 0). -/
def out8 : List PPage :=
  match apply_pass_fail_value doc9
      (writeBackDecisions (run_reconciliation inp0)) "4.1-6" with
  | .ok d => d
  | .error _ => []

/-! Structural lemmas about the engine embedding. -/

lemma processKey_key (inp : EngineInput) (c rid did : Nat) :
    ((processKey inp c rid did).1).key = (rid, did) := by
  unfold processKey
  cases h : pyGet (build_report_lookup inp.report_blocks) (rid, did) <;>
    simp only [h] <;> try rfl
  split <;> rfl

lemma processKey_snd (inp : EngineInput) (c rid did : Nat) :
    (processKey inp c rid did).2 =
      if (pyGet (build_report_lookup inp.report_blocks) (rid, did)).isSome
      then c + 1 else c := by
  unfold processKey
  cases h : pyGet (build_report_lookup inp.report_blocks) (rid, did) <;>
    simp only [h, Option.isSome_none, Option.isSome_some, if_true, if_false,
      Bool.false_eq_true, if_neg, reduceIte]
  split <;> rfl

lemma processAll_map_key (inp : EngineInput) :
    ∀ (ks : List (Nat × Nat)) (c : Nat),
      (processAll inp c ks).map ReconciliationRow.key = ks
  | [], _ => rfl
  | k :: ks, c => by
    simp only [processAll, List.map_cons, processAll_map_key inp ks,
      processKey_key]

lemma processAll_length (inp : EngineInput) :
    ∀ (ks : List (Nat × Nat)) (c : Nat),
      (processAll inp c ks).length = ks.length := by
  intro ks c
  have := congrArg List.length (processAll_map_key inp ks c)
  simpa using this

lemma oracleCalls_cons (inp : EngineInput) (k : Nat × Nat)
    (t : List (Nat × Nat)) :
    oracleCalls inp (k :: t) =
      (if (pyGet (build_report_lookup inp.report_blocks) k).isSome
       then 1 else 0) + oracleCalls inp t := by
  simp only [oracleCalls, List.filter_cons]
  split <;> simp [Nat.add_comm]

lemma processAll_row (inp : EngineInput) :
    ∀ (ks : List (Nat × Nat)) (c : Nat), ks.Nodup →
      ∀ r ∈ processAll inp c ks,
        r = (processKey inp
          (c + oracleCalls inp (ks.takeWhile fun x => decide (x ≠ r.key)))
          r.key.1 r.key.2).1 := by
  intro ks
  induction ks with
  | nil => intro c _ r hr; simp [processAll] at hr
  | cons k ks ih =>
    intro c hnd r hr
    simp only [processAll, List.mem_cons] at hr
    rcases hr with rfl | hr
    · have hkey := processKey_key inp c k.1 k.2
      simp only [hkey]
      have : (List.takeWhile (fun x => decide (x ≠ (k.1, k.2))) (k :: ks)) =
          ([] : List (Nat × Nat)) := by
        simp [List.takeWhile]
      rw [this]
      simp [oracleCalls]
    · have hmem : r.key ∈ ks := by
        have := processAll_map_key inp ks (processKey inp c k.1 k.2).2
        rw [← this]
        exact List.mem_map_of_mem ReconciliationRow.key hr
      have hne : r.key ≠ k := by
        intro h
        exact (List.nodup_cons.mp hnd).1 (h ▸ hmem)
      have ihr := ih (processKey inp c k.1 k.2).2 (List.nodup_cons.mp hnd).2
        r hr
      have htw : (List.takeWhile (fun x => decide (x ≠ r.key)) (k :: ks)) =
          k :: List.takeWhile (fun x => decide (x ≠ r.key)) ks := by
        simp [List.takeWhile, Ne.symm hne]
      rw [htw, oracleCalls_cons, processKey_snd] at *
      rcases h : (pyGet (build_report_lookup inp.report_blocks)
          (k.1, k.2)).isSome with _ | _
      · have hk : (pyGet (build_report_lookup inp.report_blocks) k).isSome
            = false := by
          rwa [show ((k.1, k.2) : Nat × Nat) = k from rfl] at h
        rw [h] at ihr
        simp only [hk, if_false, Bool.false_eq_true, reduceIte] at ihr ⊢
        simpa using ihr
      · have hk : (pyGet (build_report_lookup inp.report_blocks) k).isSome
            = true := by
          rwa [show ((k.1, k.2) : Nat × Nat) = k from rfl] at h
        rw [h] at ihr
        simp only [hk, if_true, reduceIte] at ihr ⊢
        have harith : c + (1 + oracleCalls inp
            (List.takeWhile (fun x => decide (x ≠ r.key)) ks)) =
            c + 1 + oracleCalls inp
              (List.takeWhile (fun x => decide (x ≠ r.key)) ks) := by
          omega
        rw [harith]
        exact ihr

lemma pyDictInsert_map_fst {κ V : Type} [DecidableEq κ]
    (d : List (κ × V)) (k : κ) (v : V) :
    (pyDictInsert d k v).map Prod.fst =
      if k ∈ d.map Prod.fst then d.map Prod.fst
      else d.map Prod.fst ++ [k] := by
  induction d with
  | nil => simp [pyDictInsert]
  | cons kv rest ih =>
    obtain ⟨k', v'⟩ := kv
    by_cases h : k' = k
    · subst h
      simp [pyDictInsert]
    · by_cases hm : k ∈ rest.map Prod.fst <;>
        simp [pyDictInsert, h, ih, hm, Ne.symm h]

lemma pyDictInsert_mem_fst {κ V : Type} [DecidableEq κ] {m : κ}
    (d : List (κ × V)) (k : κ) (v : V) :
    m ∈ (pyDictInsert d k v).map Prod.fst ↔
      m ∈ d.map Prod.fst ∨ m = k := by
  rw [pyDictInsert_map_fst]
  split
  · next h =>
    constructor
    · exact Or.inl
    · rintro (h2 | rfl)
      · exact h2
      · exact h
  · simp

lemma foldl_pyDictInsert_mem_fst {κ V : Type} [DecidableEq κ] {m : κ} :
    ∀ (l d : List (κ × V)),
      m ∈ ((l.foldl (fun d kv => pyDictInsert d kv.1 kv.2) d).map Prod.fst) ↔
        m ∈ d.map Prod.fst ∨ m ∈ l.map Prod.fst
  | [], d => by simp
  | kv :: l, d => by
    rw [List.foldl_cons, foldl_pyDictInsert_mem_fst l _,
      pyDictInsert_mem_fst]
    simp only [List.map_cons, List.mem_cons]
    tauto

lemma pyDict_mem_fst {κ V : Type} [DecidableEq κ] {m : κ}
    (l : List (κ × V)) :
    m ∈ (pyDict l).map Prod.fst ↔ m ∈ l.map Prod.fst := by
  rw [pyDict, foldl_pyDictInsert_mem_fst]
  simp

lemma foldl_pyDictInsert_nodup {κ V : Type} [DecidableEq κ] :
    ∀ (l d : List (κ × V)), (d.map Prod.fst).Nodup →
      ((l.foldl (fun d kv => pyDictInsert d kv.1 kv.2) d).map Prod.fst).Nodup
  | [], _, h => h
  | kv :: l, d, h => by
    rw [List.foldl_cons]
    refine foldl_pyDictInsert_nodup l _ ?_
    rw [pyDictInsert_map_fst]
    split
    · exact h
    · next h2 =>
      exact h.append (List.nodup_singleton _)
        (fun a ha hb => by
          simp only [List.mem_singleton] at hb
          exact h2 (hb ▸ ha))

lemma pyDict_keys_nodup {κ V : Type} [DecidableEq κ] (l : List (κ × V)) :
    ((pyDict l).map Prod.fst).Nodup :=
  foldl_pyDictInsert_nodup l [] (by simp)

lemma keyLe_trans (a b c : Nat × Nat) (h1 : keyLe a b = true)
    (h2 : keyLe b c = true) : keyLe a c = true := by
  simp only [keyLe, decide_eq_true_eq] at *
  omega

lemma keyLe_total (a b : Nat × Nat) : (keyLe a b || keyLe b a) = true := by
  simp only [keyLe, Bool.or_eq_true, decide_eq_true_eq]
  omega

lemma pySorted_perm {α : Type} (le : α → α → Bool) (l : List α) :
    (pySorted le l).Perm l :=
  List.perm_insertionSort _ l

lemma pySorted_pairwise {α : Type} (le : α → α → Bool)
    (htrans : ∀ a b c, le a b = true → le b c = true → le a c = true)
    (htotal : ∀ a b, (le a b || le b a) = true) (l : List α) :
    (pySorted le l).Pairwise (fun a b => le a b = true) := by
  have : IsTotal α (fun a b => le a b = true) :=
    ⟨fun a b => by
      rcases Bool.or_eq_true _ _ |>.mp (htotal a b) with h | h
      · exact Or.inl h
      · exact Or.inr h⟩
  have : IsTrans α (fun a b => le a b = true) :=
    ⟨fun a b c => htrans a b c⟩
  exact List.sorted_insertionSort _ l

lemma extraRows_map_key (inp : EngineInput) :
    (extraRows inp).map ReconciliationRow.key =
      (extraEntries inp).map Prod.fst := by
  rw [extraRows, List.map_map]
  rfl

lemma mem_extraKeys_iff (inp : EngineInput) (k : Nat × Nat) :
    k ∈ (extraEntries inp).map Prod.fst ↔
      ((∃ b ∈ inp.report_blocks, (b.repeat_id, b.difference_id) = k) ∧
        k ∉ expectedKeys) := by
  simp only [extraEntries, List.mem_map, List.mem_filter, decide_eq_true_eq]
  constructor
  · rintro ⟨kv, ⟨hmem, hnot⟩, rfl⟩
    have hmem' : kv ∈ build_report_lookup inp.report_blocks :=
      (pySorted_perm _ _).mem_iff.mp hmem
    have hkeys : kv.1 ∈ (build_report_lookup inp.report_blocks).map Prod.fst :=
      List.mem_map_of_mem _ hmem'
    rw [build_report_lookup, pyDict_mem_fst, List.map_map] at hkeys
    obtain ⟨b, hb, hbk⟩ := List.mem_map.mp hkeys
    exact ⟨⟨b, hb, hbk⟩, hnot⟩
  · rintro ⟨⟨b, hb, hbk⟩, hnot⟩
    have hkeys : k ∈ (build_report_lookup inp.report_blocks).map Prod.fst := by
      rw [build_report_lookup, pyDict_mem_fst, List.map_map]
      exact List.mem_map.mpr ⟨b, hb, hbk⟩
    obtain ⟨kv, hkv, rfl⟩ := List.mem_map.mp hkeys
    exact ⟨kv, ⟨(pySorted_perm _ _).mem_iff.mpr hkv, hnot⟩, rfl⟩

lemma processKey_both (inp : EngineInput) (c rid did : Nat)
    (pr : ProtocolRow) (rb : ReportBlock)
    (hpr : pyGet (protocolLookup inp.protocol_rows) (rid, did) = some pr)
    (hrb : pyGet (build_report_lookup inp.report_blocks) (rid, did) = some rb) :
    (processKey inp c rid did).1.matchFlag = (oracleCallAt inp c rid did).matchFlag ∧
    (processKey inp c rid did).1.confidence = (oracleCallAt inp c rid did).confidence ∧
    (processKey inp c rid did).1.decision =
      (if (oracleCallAt inp c rid did).matchFlag ∧
          effectiveConfidence (oracleCallAt inp c rid did) ≥ inp.threshold
        then Decision.PASS
        else if effectiveConfidence (oracleCallAt inp c rid did) ≥ inp.threshold
        then Decision.FAIL
        else Decision.UNSET) := by
  simp only [processKey, oracleCallAt, hpr, hrb]
  simp [apply_ite (Prod.fst (α := Decision) (β := String))]

lemma processKey_noProto (inp : EngineInput) (c rid did : Nat)
    (rb : ReportBlock)
    (hpn : pyGet (protocolLookup inp.protocol_rows) (rid, did) = none)
    (hrb : pyGet (build_report_lookup inp.report_blocks) (rid, did) = some rb) :
    (processKey inp c rid did).1.decision = Decision.UNSET ∧
    (processKey inp c rid did).1.reason =
      "Protocol row mapping missing for this repeat/difference; " ++
        "manual review required." ∧
    (processKey inp c rid did).1.matchFlag = (oracleCallAt inp c rid did).matchFlag ∧
    (processKey inp c rid did).1.confidence = (oracleCallAt inp c rid did).confidence := by
  simp only [processKey, oracleCallAt, hpn, hrb]
  simp

lemma mem_extraRows (inp : EngineInput) {r : ReconciliationRow}
    (hr : r ∈ extraRows inp) :
    r.key ∉ expectedKeys ∧ r.decision = .UNSET ∧
      r.reason = "Informational: extra difference ID found in report." := by
  simp only [extraRows, List.mem_map] at hr
  obtain ⟨kv, hkv, rfl⟩ := hr
  simp only [extraEntries, List.mem_filter] at hkv
  refine ⟨?_, rfl, rfl⟩
  have := hkv.2
  simpa [ReconciliationRow.key] using of_decide_eq_true this

lemma run_row_at (inp : EngineInput) (rid did : Nat)
    (h1 : (rid, did) ∈ expectedKeys) :
    ∀ r ∈ run_reconciliation inp, r.repeat_id = rid →
      r.difference_id = did →
      r = (processKey inp (oracleCallsBefore inp (rid, did)) rid did).1 := by
  intro r hr h2 h3
  have hkey : r.key = (rid, did) := by
    simp [ReconciliationRow.key, h2, h3]
  rcases List.mem_append.mp hr with h | h
  · have := processAll_row inp expectedKeys 0 (by decide) r h
    rw [hkey] at this
    simpa [oracleCallsBefore] using this
  · exact absurd (hkey ▸ h1) (mem_extraRows inp h).1

lemma take_app {α : Type} (l₁ l₂ : List α) :
    (l₁ ++ l₂).take l₁.length = l₁ := by simp

lemma drop_app {α : Type} (l₁ l₂ : List α) :
    (l₁ ++ l₂).drop l₁.length = l₂ := by simp

/-- C1: for every in-universe key that has both a protocol (master) record
and a report record, the engine's decision is PASS when the oracle result
has match=true and effective confidence ≥ threshold, FAIL when match=false
and effective confidence ≥ threshold, and UNSET exactly when the effective
confidence is below the threshold regardless of match, where the effective
confidence defaults to 1.0 when the oracle result carries no confidence
(`effectiveConfidence`). The oracle's match and confidence are recorded in
the row unchanged. -/
theorem c1_decision_policy (inp : EngineInput) (repeat_id difference_id : Nat)
    (h1 : (repeat_id, difference_id) ∈ expectedKeys)
    (hps : (pyGet (protocolLookup inp.protocol_rows)
      (repeat_id, difference_id)).isSome = true)
    (hrs : (pyGet (build_report_lookup inp.report_blocks)
      (repeat_id, difference_id)).isSome = true) :
    ∀ r ∈ run_reconciliation inp,
      r.repeat_id = repeat_id → r.difference_id = difference_id →
      r.matchFlag = (oracleResultAt inp repeat_id difference_id).matchFlag ∧
      r.confidence = (oracleResultAt inp repeat_id difference_id).confidence ∧
      (r.decision = Decision.PASS ↔
        ((oracleResultAt inp repeat_id difference_id).matchFlag = true ∧
          effectiveConfidence (oracleResultAt inp repeat_id difference_id) ≥
            inp.threshold)) ∧
      (r.decision = Decision.FAIL ↔
        ((oracleResultAt inp repeat_id difference_id).matchFlag = false ∧
          effectiveConfidence (oracleResultAt inp repeat_id difference_id) ≥
            inp.threshold)) ∧
      (r.decision = Decision.UNSET ↔
        effectiveConfidence (oracleResultAt inp repeat_id difference_id) <
          inp.threshold) := by
  intro r hr h2 h3
  have hrow := run_row_at inp repeat_id difference_id h1 r hr h2 h3
  obtain ⟨pr, hpr⟩ := Option.isSome_iff_exists.mp hps
  obtain ⟨rb, hrb⟩ := Option.isSome_iff_exists.mp hrs
  subst hrow
  obtain ⟨e1, e2, e3⟩ := processKey_both inp
    (oracleCallsBefore inp (repeat_id, difference_id)) repeat_id difference_id
    pr rb hpr hrb
  have hOR : oracleResultAt inp repeat_id difference_id =
      oracleCallAt inp (oracleCallsBefore inp (repeat_id, difference_id))
        repeat_id difference_id := rfl
  rw [hOR]
  refine ⟨e1, e2, ?_, ?_, ?_⟩ <;> rw [e3] <;> split_ifs with hA hB <;>
    simp_all [not_le, not_lt]

/-- C2: the row list of one run holds exactly one row per key of the 4×19
universe, in repeat-major difference-minor order (the first 76 keys), then
exactly one informational UNSET row per distinct report key outside the
universe, sorted ascending by key; no key occurs twice. -/
theorem c2_row_universe (inp : EngineInput) :
    ((run_reconciliation inp).map ReconciliationRow.key).take 76 =
      ((List.range 4).flatMap fun a =>
        (List.range 19).map fun b => (a + 1, b + 1)) ∧
    ((run_reconciliation inp).map ReconciliationRow.key).Nodup ∧
    (∀ k, k ∈ ((run_reconciliation inp).map ReconciliationRow.key).drop 76 ↔
      ((∃ b ∈ inp.report_blocks, (b.repeat_id, b.difference_id) = k) ∧
        k ∉ ((run_reconciliation inp).map ReconciliationRow.key).take 76)) ∧
    (((run_reconciliation inp).map ReconciliationRow.key).drop 76).Pairwise
      (fun a b => keyLe a b = true) ∧
    ∀ r ∈ (run_reconciliation inp).drop 76,
      r.decision = Decision.UNSET ∧
      r.reason = "Informational: extra difference ID found in report." := by
  have hmap : (run_reconciliation inp).map ReconciliationRow.key =
      expectedKeys ++ (extraEntries inp).map Prod.fst := by
    rw [run_reconciliation, List.map_append, processAll_map_key,
      extraRows_map_key]
  have hlen : expectedKeys.length = 76 := by decide
  have htake : ((run_reconciliation inp).map ReconciliationRow.key).take 76 =
      expectedKeys := by
    rw [hmap, ← hlen, take_app]
  have hdrop : ((run_reconciliation inp).map ReconciliationRow.key).drop 76 =
      (extraEntries inp).map Prod.fst := by
    rw [hmap, ← hlen, drop_app]
  have hXnotE : ∀ k ∈ (extraEntries inp).map Prod.fst, k ∉ expectedKeys := by
    intro k hk
    obtain ⟨kv, hkv, rfl⟩ := List.mem_map.mp hk
    rw [extraEntries] at hkv
    exact of_decide_eq_true (List.mem_filter.mp hkv).2
  have hXnodup : ((extraEntries inp).map Prod.fst).Nodup := by
    have h1 : ((build_report_lookup inp.report_blocks).map Prod.fst).Nodup :=
      pyDict_keys_nodup _
    have hperm := pySorted_perm (fun a b : (Nat × Nat) × ReportBlock =>
      keyLe a.1 b.1) (build_report_lookup inp.report_blocks)
    have h2 := (hperm.map Prod.fst).symm.nodup h1
    have hsub : List.Sublist (extraEntries inp)
        (pySorted (fun a b => keyLe a.1 b.1)
          (build_report_lookup inp.report_blocks)) := List.filter_sublist _
    exact (hsub.map Prod.fst).nodup h2
  refine ⟨by rw [htake]; decide, ?_, ?_, ?_, ?_⟩
  · rw [hmap]
    exact List.Nodup.append (by decide) hXnodup
      (fun a ha hX => hXnotE a hX ha)
  · intro k
    rw [hdrop, htake]
    exact mem_extraKeys_iff inp k
  · rw [hdrop]
    have hs := pySorted_pairwise
      (fun a b : (Nat × Nat) × ReportBlock => keyLe a.1 b.1)
      (fun a b c => keyLe_trans a.1 b.1 c.1)
      (fun a b => keyLe_total a.1 b.1)
      (build_report_lookup inp.report_blocks)
    have hfil : List.Pairwise
        (fun a b : (Nat × Nat) × ReportBlock => keyLe a.1 b.1 = true)
        (extraEntries inp) :=
      List.Pairwise.sublist (List.filter_sublist _) hs
    exact List.pairwise_map.mpr hfil
  · intro r hr
    have hlen2 : (processAll inp 0 expectedKeys).length = 76 := by
      rw [processAll_length]; exact hlen
    have hdrop2 : (run_reconciliation inp).drop 76 = extraRows inp := by
      rw [run_reconciliation, ← hlen2, drop_app]
    rw [hdrop2] at hr
    exact ⟨(mem_extraRows inp hr).2.1, (mem_extraRows inp hr).2.2⟩

/-- C3: for every in-universe key with no report record, the engine
synthesizes without invoking the oracle: an auto-PASS row with confidence
exactly 1.0 and the fixed auto-pass reason when the report holds zero
records for the key's repeat, else a FAIL row with confidence exactly 1.0
and the fixed missing-difference reason, additionally flagged
(`missing_protocol_widget` evidence) exactly when the protocol (master)
record is also absent. The unchanged oracle-call counter expresses that no
oracle call happens for such a key. -/
theorem c3_missing_report_synthesis (inp : EngineInput)
    (repeat_id difference_id : Nat)
    (h1 : (repeat_id, difference_id) ∈ expectedKeys)
    (hrn : pyGet (build_report_lookup inp.report_blocks)
      (repeat_id, difference_id) = none) :
    (∀ r ∈ run_reconciliation inp,
      r.repeat_id = repeat_id → r.difference_id = difference_id →
      ((repeatCount inp.report_blocks repeat_id = 0 →
        r.decision = Decision.PASS ∧ r.matchFlag = true ∧
        r.confidence = some 1 ∧
        r.reason = "Auto-pass: report shows zero differences for this repeat.") ∧
      (repeatCount inp.report_blocks repeat_id ≠ 0 →
        r.decision = Decision.FAIL ∧ r.matchFlag = false ∧
        r.confidence = some 1 ∧
        r.reason = "Missing difference in report for active repeat." ∧
        ("missing_protocol_widget" ∈ r.evidence ↔
          pyGet (protocolLookup inp.protocol_rows)
            (repeat_id, difference_id) = none)))) ∧
    ∀ c : Nat, (processKey inp c repeat_id difference_id).2 = c := by
  constructor
  · intro r hr h2 h3
    have hrow := run_row_at inp repeat_id difference_id h1 r hr h2 h3
    subst hrow
    constructor
    · intro hcount
      simp [processKey, hrn, hcount]
    · intro hcount
      simp only [processKey, hrn, if_neg hcount]
      refine ⟨by trivial, by trivial, by trivial, by trivial, ?_⟩
      cases hpn : pyGet (protocolLookup inp.protocol_rows)
          (repeat_id, difference_id) <;> simp [hpn]
  · intro c
    rw [processKey_snd, hrn]
    simp

/-- C6: for every in-universe key with a report record but no protocol
(master) record, the final decision is UNSET with the fixed
missing-mapping reason, regardless of the oracle's match and confidence,
which are nonetheless recorded in the row; and no write-back entry exists
for that key. -/
theorem c6_missing_master_unset (inp : EngineInput)
    (repeat_id difference_id : Nat)
    (h1 : (repeat_id, difference_id) ∈ expectedKeys)
    (hpn : pyGet (protocolLookup inp.protocol_rows)
      (repeat_id, difference_id) = none)
    (hrs : (pyGet (build_report_lookup inp.report_blocks)
      (repeat_id, difference_id)).isSome = true) :
    ∀ r ∈ run_reconciliation inp,
      r.repeat_id = repeat_id → r.difference_id = difference_id →
      r.decision = Decision.UNSET ∧
      r.reason = "Protocol row mapping missing for this repeat/difference; " ++
        "manual review required." ∧
      r.matchFlag = (oracleResultAt inp repeat_id difference_id).matchFlag ∧
      r.confidence = (oracleResultAt inp repeat_id difference_id).confidence ∧
      (repeat_id, difference_id) ∉
        (writeBackDecisions (run_reconciliation inp)).map Prod.fst := by
  have hall : ∀ r ∈ run_reconciliation inp,
      r.repeat_id = repeat_id → r.difference_id = difference_id →
      r.decision = Decision.UNSET ∧
      r.reason = "Protocol row mapping missing for this repeat/difference; " ++
        "manual review required." ∧
      r.matchFlag = (oracleResultAt inp repeat_id difference_id).matchFlag ∧
      r.confidence = (oracleResultAt inp repeat_id difference_id).confidence := by
    intro r hr h2 h3
    have hrow := run_row_at inp repeat_id difference_id h1 r hr h2 h3
    obtain ⟨rb, hrb⟩ := Option.isSome_iff_exists.mp hrs
    subst hrow
    exact processKey_noProto inp
      (oracleCallsBefore inp (repeat_id, difference_id)) repeat_id
      difference_id rb hpn hrb
  intro r hr h2 h3
  obtain ⟨d1, d2, d3, d4⟩ := hall r hr h2 h3
  refine ⟨d1, d2, d3, d4, ?_⟩
  intro hmem
  rw [writeBackDecisions, pyDict_mem_fst] at hmem
  obtain ⟨p, hp, hk⟩ := List.mem_map.mp hmem
  obtain ⟨r'', hr'', hsome⟩ := List.mem_filterMap.mp hp
  by_cases hd : r''.decision = Decision.PASS ∨ r''.decision = Decision.FAIL
  · rw [if_pos hd] at hsome
    obtain rfl := Option.some.inj hsome
    simp only [Prod.mk.injEq] at hk
    have := (hall r'' hr'' hk.1 hk.2).1
    rcases hd with hd | hd <;> rw [this] at hd <;> cases hd
  · rw [if_neg hd] at hsome
    cases hsome

/-- Witness for C1 at the concrete input `inp0`, key (1,1). -/
theorem c1_decision_policy_witness :
    w1.matchFlag = (oracleResultAt inp0 1 1).matchFlag ∧
    w1.confidence = (oracleResultAt inp0 1 1).confidence ∧
    (w1.decision = Decision.PASS ↔
      ((oracleResultAt inp0 1 1).matchFlag = true ∧
        effectiveConfidence (oracleResultAt inp0 1 1) ≥ inp0.threshold)) ∧
    (w1.decision = Decision.FAIL ↔
      ((oracleResultAt inp0 1 1).matchFlag = false ∧
        effectiveConfidence (oracleResultAt inp0 1 1) ≥ inp0.threshold)) ∧
    (w1.decision = Decision.UNSET ↔
      effectiveConfidence (oracleResultAt inp0 1 1) < inp0.threshold) :=
  c1_decision_policy inp0 1 1 (by decide) (by decide) (by decide) w1
    (by decide) (by decide) (by decide)

/-- Witness for C2 at the concrete input `inp0`: the extra-key row for key
(9,1) is informational UNSET. -/
theorem c2_row_universe_witness :
    w2.decision = Decision.UNSET ∧
    w2.reason = "Informational: extra difference ID found in report." :=
  (c2_row_universe inp0).2.2.2.2 w2 (by decide)

/-- Witness for C3 at the concrete input `inp0`, key (3,1), whose repeat
has zero report records. -/
theorem c3_missing_report_synthesis_witness :
    (w3.decision = Decision.PASS ∧ w3.matchFlag = true ∧
      w3.confidence = some 1 ∧
      w3.reason = "Auto-pass: report shows zero differences for this repeat.") ∧
    (processKey inp0 0 3 1).2 = 0 :=
  ⟨((c3_missing_report_synthesis inp0 3 1 (by decide) (by decide)).1 w3
      (by decide) (by decide) (by decide)).1 (by decide),
    (c3_missing_report_synthesis inp0 3 1 (by decide) (by decide)).2 0⟩

/-- Witness for C6 at the concrete input `inp0`, key (2,1), which has a
report block but no protocol row. -/
theorem c6_missing_master_unset_witness :
    w6.decision = Decision.UNSET ∧
    w6.reason = "Protocol row mapping missing for this repeat/difference; " ++
      "manual review required." ∧
    w6.matchFlag = (oracleResultAt inp0 2 1).matchFlag ∧
    w6.confidence = (oracleResultAt inp0 2 1).confidence ∧
    (2, 1) ∉ (writeBackDecisions (run_reconciliation inp0)).map Prod.fst :=
  c6_missing_master_unset inp0 2 1 (by decide) (by decide) (by decide) w6
    (by decide) (by decide) (by decide)

/-! Lemmas about the oracle-client embedding. -/

lemma pyGet_pyDictInsert_self {κ V : Type} [DecidableEq κ]
    (d : List (κ × V)) (k : κ) (v : V) :
    pyGet (pyDictInsert d k v) k = some v := by
  induction d with
  | nil => simp [pyDictInsert, pyGet]
  | cons kv rest ih =>
    obtain ⟨k', v'⟩ := kv
    by_cases h : k' = k
    · subst h
      simp [pyDictInsert, pyGet]
    · simp only [pyDictInsert, if_neg h]
      simpa [pyGet, List.find?, h] using ih

lemma compare_entry (cfg : VLMConfig) (st : VLMState)
    (b1 b2 b3 b4 : List Nat) (tr : Nat → TransportOutcome)
    (hkey : cfg.api_key ≠ "")
    (hmiss : cfg.cache_enabled = true →
      pyGet st.cache (cache_key cfg b1 b2 b3 b4) = none) :
    compare cfg st (some b1) (some b2) (some b3) (some b4) tr =
      compareLoop cfg tr (cache_key cfg b1 b2 b3 b4)
        (cfg.max_retries + 1) 0 st [] none := by
  simp only [compare]
  rw [if_neg hkey]
  cases hc : cfg.cache_enabled
  · simp [hc]
  · simp [hc, hmiss hc]

lemma loop_step_retry (cfg : VLMConfig) (tr : Nat → TransportOutcome)
    (key : String) (fuel attempt : Nat) (st : VLMState)
    (events : List VLMEvent) (lastErr : Option String)
    (hret : retryable (tr st.requestCount) = true)
    (hatt : attempt < cfg.max_retries) :
    compareLoop cfg tr key (fuel + 1) attempt st events lastErr =
      compareLoop cfg tr key fuel (attempt + 1)
        { st with requestCount := st.requestCount + 1 }
        (events ++ [.throttle, .netRequest, .backoffSleep (2 ^ attempt)])
        (some (outcomeMsg (tr st.requestCount))) := by
  cases h : tr st.requestCount with
  | httpError code msg =>
    rw [h] at hret
    simp only [retryable, decide_eq_true_eq] at hret
    subst hret
    simp [compareLoop, h, hatt, outcomeMsg]
  | netError msg =>
    simp [compareLoop, h, hatt, outcomeMsg]
  | timeoutErr msg =>
    simp [compareLoop, h, hatt, outcomeMsg]
  | success body =>
    rw [h] at hret
    simp [retryable] at hret
  | successUndecodable msg =>
    rw [h] at hret
    simp [retryable] at hret

lemma loop_step_stop_http (cfg : VLMConfig) (tr : Nat → TransportOutcome)
    (key : String) (fuel attempt : Nat) (st : VLMState)
    (events : List VLMEvent) (lastErr : Option String) (code : Nat)
    (msg : String)
    (h : tr st.requestCount = .httpError code msg)
    (hno : ¬(code = 429 ∧ attempt < cfg.max_retries)) :
    compareLoop cfg tr key (fuel + 1) attempt st events lastErr =
      ⟨.ok (requestFailedResult (some msg)),
        { st with requestCount := st.requestCount + 1 },
        events ++ [.throttle, .netRequest]⟩ := by
  simp [compareLoop, h, hno]

lemma loop_step_stop_net (cfg : VLMConfig) (tr : Nat → TransportOutcome)
    (key : String) (fuel attempt : Nat) (st : VLMState)
    (events : List VLMEvent) (lastErr : Option String) (msg : String)
    (h : tr st.requestCount = .netError msg)
    (hno : ¬ attempt < cfg.max_retries) :
    compareLoop cfg tr key (fuel + 1) attempt st events lastErr =
      ⟨.ok (requestFailedResult (some msg)),
        { st with requestCount := st.requestCount + 1 },
        events ++ [.throttle, .netRequest]⟩ := by
  simp [compareLoop, h, hno]

lemma loop_step_stop_timeout (cfg : VLMConfig) (tr : Nat → TransportOutcome)
    (key : String) (fuel attempt : Nat) (st : VLMState)
    (events : List VLMEvent) (lastErr : Option String) (msg : String)
    (h : tr st.requestCount = .timeoutErr msg)
    (hno : ¬ attempt < cfg.max_retries) :
    compareLoop cfg tr key (fuel + 1) attempt st events lastErr =
      ⟨.ok (requestFailedResult (some msg)),
        { st with requestCount := st.requestCount + 1 },
        events ++ [.throttle, .netRequest]⟩ := by
  simp [compareLoop, h, hno]

lemma loop_step_undecodable (cfg : VLMConfig) (tr : Nat → TransportOutcome)
    (key : String) (fuel attempt : Nat) (st : VLMState)
    (events : List VLMEvent) (lastErr : Option String) (msg : String)
    (h : tr st.requestCount = .successUndecodable msg) :
    compareLoop cfg tr key (fuel + 1) attempt st events lastErr =
      ⟨.ok (parseFailedResult msg),
        { st with requestCount := st.requestCount + 1 },
        events ++ [.throttle, .netRequest]⟩ := by
  simp [compareLoop, h]

lemma loop_step_parse_err (cfg : VLMConfig) (tr : Nat → TransportOutcome)
    (key : String) (fuel attempt : Nat) (st : VLMState)
    (events : List VLMEvent) (lastErr : Option String) (body : Json)
    (e : PyErr)
    (h : tr st.requestCount = .success body)
    (hb : handleBody cfg.lib body = .error e)
    (hc : catchableParse e = true) :
    compareLoop cfg tr key (fuel + 1) attempt st events lastErr =
      ⟨.ok (parseFailedResult (pyErrMsg e)),
        { st with requestCount := st.requestCount + 1 },
        events ++ [.throttle, .netRequest]⟩ := by
  simp [compareLoop, h, hb, hc]

lemma loop_step_raise (cfg : VLMConfig) (tr : Nat → TransportOutcome)
    (key : String) (fuel attempt : Nat) (st : VLMState)
    (events : List VLMEvent) (lastErr : Option String) (body : Json)
    (e : PyErr)
    (h : tr st.requestCount = .success body)
    (hb : handleBody cfg.lib body = .error e)
    (hc : catchableParse e = false) :
    compareLoop cfg tr key (fuel + 1) attempt st events lastErr =
      ⟨.error e,
        { st with requestCount := st.requestCount + 1 },
        events ++ [.throttle, .netRequest]⟩ := by
  simp [compareLoop, h, hb, hc]

lemma loop_step_ok (cfg : VLMConfig) (tr : Nat → TransportOutcome)
    (key : String) (fuel attempt : Nat) (st : VLMState)
    (events : List VLMEvent) (lastErr : Option String) (body : Json)
    (r : ComparisonResult)
    (h : tr st.requestCount = .success body)
    (hb : handleBody cfg.lib body = .ok r)
    (hcache : cfg.cache_enabled = true) :
    compareLoop cfg tr key (fuel + 1) attempt st events lastErr =
      ⟨.ok r,
        { cache := pyDictInsert st.cache key r
          requestCount := st.requestCount + 1 },
        events ++ [.throttle, .netRequest]⟩ := by
  simp [compareLoop, h, hb, hcache]

lemma loop_skip_retryable (cfg : VLMConfig) (tr : Nat → TransportOutcome)
    (key : String) :
    ∀ (i attempt : Nat) (st : VLMState) (events : List VLMEvent)
      (lastErr : Option String),
      attempt + i ≤ cfg.max_retries →
      (∀ j, j < i → retryable (tr (st.requestCount + j)) = true) →
      ∃ le, compareLoop cfg tr key (cfg.max_retries + 1 - attempt) attempt st
          events lastErr =
        compareLoop cfg tr key (cfg.max_retries + 1 - (attempt + i))
          (attempt + i) { st with requestCount := st.requestCount + i }
          (events ++ retryEvents attempt i) le := by
  intro i
  induction i with
  | zero =>
    intro attempt st events lastErr _ _
    exact ⟨lastErr, by simp [retryEvents]⟩
  | succ n ih =>
    intro attempt st events lastErr hle hret
    have hatt : attempt < cfg.max_retries := by omega
    have hf : cfg.max_retries + 1 - attempt = (cfg.max_retries - attempt) + 1 :=
      by omega
    rw [hf, loop_step_retry cfg tr key (cfg.max_retries - attempt) attempt st
      events lastErr (by simpa using hret 0 (by omega)) hatt]
    have hf2 : cfg.max_retries - attempt = cfg.max_retries + 1 - (attempt + 1) :=
      by omega
    rw [hf2]
    obtain ⟨le, hrec⟩ := ih (attempt + 1)
      { st with requestCount := st.requestCount + 1 }
      (events ++ [.throttle, .netRequest, .backoffSleep (2 ^ attempt)])
      (some (outcomeMsg (tr st.requestCount)))
      (by omega)
      (fun j hj => by
        have := hret (j + 1) (by omega)
        simpa [Nat.add_assoc, Nat.add_comm 1 j] using this)
    rw [hrec]
    refine ⟨le, ?_⟩
    have e1 : attempt + 1 + n = attempt + (n + 1) := by omega
    have e2 : st.requestCount + 1 + n = st.requestCount + (n + 1) := by omega
    simp only [e1, e2, retryEvents, List.append_assoc]

lemma handleBody_c4 (lib : PyLib)
    (hjl : lib.jsonLoads c4Text = some c4Parsed) :
    handleBody lib c4Body =
      .error (.typeErr "float() argument must be a string or a number") := by
  have h1 : handleBody lib c4Body =
      (parse_model_json lib c4Text >>= fun pairs =>
        coerce_comparison_payload lib pairs >>= fun cr =>
        Except.ok (clampConfidence cr)) := rfl
  have h2 : parse_model_json lib c4Text = finishParse c4Parsed := by
    unfold parse_model_json
    rw [show strip_json_fence c4Text = c4Text from by decide]
    simp only [hjl]
  rw [h1, h2]
  rfl

/-- C4 (code bug): the oracle client's `compare` CAN raise. A transport
success whose model text is `{"match": true, "confidence": []}` passes
json.loads and the `match` coercion, but `float([])` raises TypeError,
which the except clause `(json.JSONDecodeError, ValueError, SyntaxError)`
does not catch, so `compare` propagates an exception instead of returning
a match=false / confidence=0.0 result as its contract promises. -/
theorem c4_compare_raises (cfg : VLMConfig) (st : VLMState)
    (b1 b2 b3 b4 : List Nat) (tr : Nat → TransportOutcome)
    (hkey : cfg.api_key ≠ "")
    (hmiss : cfg.cache_enabled = true →
      pyGet st.cache (cache_key cfg b1 b2 b3 b4) = none)
    (htr : tr st.requestCount = .success c4Body)
    (hjl : cfg.lib.jsonLoads c4Text = some c4Parsed) :
    (compare cfg st (some b1) (some b2) (some b3) (some b4) tr).result =
      .error (.typeErr "float() argument must be a string or a number") := by
  rw [compare_entry cfg st b1 b2 b3 b4 tr hkey hmiss,
    loop_step_raise cfg tr (cache_key cfg b1 b2 b3 b4) cfg.max_retries 0 st
      [] none c4Body _ htr (handleBody_c4 cfg.lib hjl) rfl]

/-- Witness for C4 at a fully concrete input. -/
theorem c4_compare_raises_witness :
    (compare cfg7 st0 (some [1]) (some [2]) (some [3]) (some [4])
      tr4).result =
      .error (.typeErr "float() argument must be a string or a number") :=
  c4_compare_raises cfg7 st0 [1] [2] [3] [4] tr4 (by decide) (fun _ => rfl)
    rfl rfl

/-- C5 counterexample: with caching enabled, byte-identical images and the
same model, a second `compare` call still issues a network request when
the first call's result was a failure result (failures are never cached).
Here the transport always times out and max_retries is 0: both calls
perform exactly one network attempt, refuting "a second call ... returns
the identical ComparisonResult without issuing a network request". -/
theorem c5_counterexample :
    cfg5x.cache_enabled = true ∧
    (compare cfg5x st0 (some [1]) (some [2]) (some [3]) (some [4])
      trTimeout).events.count VLMEvent.netRequest = 1 ∧
    (compare cfg5x
      (compare cfg5x st0 (some [1]) (some [2]) (some [3]) (some [4])
        trTimeout).state
      (some [1]) (some [2]) (some [3]) (some [4])
      trTimeout).events.count VLMEvent.netRequest = 1 := by
  refine ⟨rfl, ?_, ?_⟩ <;> rfl

/-- C5 (amended): when caching is enabled and the first `compare` call
obtains a successfully parsed oracle response (only such results are
cached), a second call with byte-identical four images under the same
model returns the identical ComparisonResult with no network request and
no rate-limit wait (its event trace is empty and its state unchanged);
and the cache key is the abstract sha256 of the version tag, the model
identifier and the raw bytes of the four images in fixed order. -/
theorem c5_cached_second_call (cfg : VLMConfig) (st : VLMState)
    (b1 b2 b3 b4 : List Nat) (tr tr2 : Nat → TransportOutcome)
    (body : Json) (r : ComparisonResult)
    (hcache : cfg.cache_enabled = true)
    (hkey : cfg.api_key ≠ "")
    (hmiss : pyGet st.cache (cache_key cfg b1 b2 b3 b4) = none)
    (htr : tr st.requestCount = .success body)
    (hbody : handleBody cfg.lib body = .ok r) :
    (compare cfg st (some b1) (some b2) (some b3) (some b4) tr).result =
      .ok r ∧
    (compare cfg
      (compare cfg st (some b1) (some b2) (some b3) (some b4) tr).state
      (some b1) (some b2) (some b3) (some b4) tr2).result = .ok r ∧
    (compare cfg
      (compare cfg st (some b1) (some b2) (some b3) (some b4) tr).state
      (some b1) (some b2) (some b3) (some b4) tr2).events = [] ∧
    (compare cfg
      (compare cfg st (some b1) (some b2) (some b3) (some b4) tr).state
      (some b1) (some b2) (some b3) (some b4) tr2).state =
      (compare cfg st (some b1) (some b2) (some b3) (some b4) tr).state ∧
    cache_key cfg b1 b2 b3 b4 =
      cfg.hashFn (pyEncode VLM_CACHE_VERSION ++ pyEncode cfg.model_name ++
        b1 ++ b2 ++ b3 ++ b4) := by
  have h1 : compare cfg st (some b1) (some b2) (some b3) (some b4) tr =
      ⟨.ok r,
        { cache := pyDictInsert st.cache (cache_key cfg b1 b2 b3 b4) r,
          requestCount := st.requestCount + 1 },
        [.throttle, .netRequest]⟩ := by
    rw [compare_entry cfg st b1 b2 b3 b4 tr hkey (fun _ => hmiss),
      loop_step_ok cfg tr (cache_key cfg b1 b2 b3 b4) cfg.max_retries 0 st
        [] none body r htr hbody hcache]
    rfl
  have h2 : compare cfg
      ({ cache := pyDictInsert st.cache (cache_key cfg b1 b2 b3 b4) r,
         requestCount := st.requestCount + 1 } : VLMState)
      (some b1) (some b2) (some b3) (some b4) tr2 =
      ⟨.ok r,
        { cache := pyDictInsert st.cache (cache_key cfg b1 b2 b3 b4) r,
          requestCount := st.requestCount + 1 },
        []⟩ := by
    simp only [compare]
    rw [if_neg hkey]
    simp [hcache, pyGet_pyDictInsert_self]
  rw [h1, h2]
  exact ⟨rfl, rfl, rfl, rfl, rfl⟩

/-- Witness for C5's amended statement at a fully concrete input. -/
theorem c5_cached_second_call_witness :
    (compare cfg7 st0 (some [1]) (some [2]) (some [3]) (some [4])
      tr5).result = .ok okResult ∧
    (compare cfg7
      (compare cfg7 st0 (some [1]) (some [2]) (some [3]) (some [4])
        tr5).state
      (some [1]) (some [2]) (some [3]) (some [4]) trTimeout).result =
      .ok okResult ∧
    (compare cfg7
      (compare cfg7 st0 (some [1]) (some [2]) (some [3]) (some [4])
        tr5).state
      (some [1]) (some [2]) (some [3]) (some [4]) trTimeout).events = [] ∧
    (compare cfg7
      (compare cfg7 st0 (some [1]) (some [2]) (some [3]) (some [4])
        tr5).state
      (some [1]) (some [2]) (some [3]) (some [4]) trTimeout).state =
      (compare cfg7 st0 (some [1]) (some [2]) (some [3]) (some [4])
        tr5).state ∧
    cache_key cfg7 [1] [2] [3] [4] =
      cfg7.hashFn (pyEncode VLM_CACHE_VERSION ++
        pyEncode cfg7.model_name ++ [1] ++ [2] ++ [3] ++ [4]) :=
  c5_cached_second_call cfg7 st0 [1] [2] [3] [4] tr5 trTimeout okBody
    okResult rfl (by decide) rfl rfl rfl

/-- C7: the retry loop of `compare`. (a) A payload-parse failure after any
number of retried transient failures returns the parsing-failed result
immediately, with no retry and no further backoff sleep. (b) Likewise for
an HTTP-success body that is not decodable JSON. (c) When every attempt
fails transiently (HTTP 429 / network error / timeout), the loop performs
exactly max_retries + 1 network attempts with backoff sleeps of
2^0, 2^1, ... seconds between attempts (base 1s, doubling; none after the
last), then returns the request-failed result carrying the last error.
(d) A non-429 HTTP error stops the loop immediately with the
request-failed result carrying it: only 429 and transient network/timeout
errors are retried. -/
theorem c7_retry_policy (cfg : VLMConfig) (st : VLMState)
    (b1 b2 b3 b4 : List Nat) (tr : Nat → TransportOutcome)
    (hkey : cfg.api_key ≠ "")
    (hmiss : cfg.cache_enabled = true →
      pyGet st.cache (cache_key cfg b1 b2 b3 b4) = none) :
    (∀ i body e, i ≤ cfg.max_retries →
      (∀ j, j < i → retryable (tr (st.requestCount + j)) = true) →
      tr (st.requestCount + i) = .success body →
      handleBody cfg.lib body = .error e →
      catchableParse e = true →
      compare cfg st (some b1) (some b2) (some b3) (some b4) tr =
        ⟨.ok (parseFailedResult (pyErrMsg e)),
          { st with requestCount := st.requestCount + i + 1 },
          retryEvents 0 i ++ [.throttle, .netRequest]⟩) ∧
    (∀ i msg, i ≤ cfg.max_retries →
      (∀ j, j < i → retryable (tr (st.requestCount + j)) = true) →
      tr (st.requestCount + i) = .successUndecodable msg →
      compare cfg st (some b1) (some b2) (some b3) (some b4) tr =
        ⟨.ok (parseFailedResult msg),
          { st with requestCount := st.requestCount + i + 1 },
          retryEvents 0 i ++ [.throttle, .netRequest]⟩) ∧
    ((∀ j, j ≤ cfg.max_retries →
        retryable (tr (st.requestCount + j)) = true) →
      compare cfg st (some b1) (some b2) (some b3) (some b4) tr =
        ⟨.ok (requestFailedResult
            (some (outcomeMsg (tr (st.requestCount + cfg.max_retries))))),
          { st with requestCount := st.requestCount + cfg.max_retries + 1 },
          retryEvents 0 cfg.max_retries ++ [.throttle, .netRequest]⟩) ∧
    (∀ i code msg, i ≤ cfg.max_retries →
      (∀ j, j < i → retryable (tr (st.requestCount + j)) = true) →
      tr (st.requestCount + i) = .httpError code msg →
      code ≠ 429 →
      compare cfg st (some b1) (some b2) (some b3) (some b4) tr =
        ⟨.ok (requestFailedResult (some msg)),
          { st with requestCount := st.requestCount + i + 1 },
          retryEvents 0 i ++ [.throttle, .netRequest]⟩) := by
  have hskip : ∀ (i : Nat), i ≤ cfg.max_retries →
      (∀ j, j < i → retryable (tr (st.requestCount + j)) = true) →
      ∃ le, compareLoop cfg tr (cache_key cfg b1 b2 b3 b4)
          (cfg.max_retries + 1) 0 st [] none =
        compareLoop cfg tr (cache_key cfg b1 b2 b3 b4)
          (cfg.max_retries + 1 - i) i
          { st with requestCount := st.requestCount + i }
          (retryEvents 0 i) le := by
    intro i hi hr
    have := loop_skip_retryable cfg tr (cache_key cfg b1 b2 b3 b4) i 0 st
      [] none (by omega) hr
    simpa using this
  refine ⟨?_, ?_, ?_, ?_⟩
  · intro i body e hi hr htr hb hc
    rw [compare_entry cfg st b1 b2 b3 b4 tr hkey hmiss]
    obtain ⟨le, hsk⟩ := hskip i hi hr
    rw [hsk, show cfg.max_retries + 1 - i = (cfg.max_retries - i) + 1 from
      by omega]
    rw [loop_step_parse_err cfg tr (cache_key cfg b1 b2 b3 b4)
      (cfg.max_retries - i) i { st with requestCount := st.requestCount + i }
      (retryEvents 0 i) le body e htr hb hc]
  · intro i msg hi hr htr
    rw [compare_entry cfg st b1 b2 b3 b4 tr hkey hmiss]
    obtain ⟨le, hsk⟩ := hskip i hi hr
    rw [hsk, show cfg.max_retries + 1 - i = (cfg.max_retries - i) + 1 from
      by omega]
    rw [loop_step_undecodable cfg tr (cache_key cfg b1 b2 b3 b4)
      (cfg.max_retries - i) i { st with requestCount := st.requestCount + i }
      (retryEvents 0 i) le msg htr]
  · intro hr
    rw [compare_entry cfg st b1 b2 b3 b4 tr hkey hmiss]
    obtain ⟨le, hsk⟩ := hskip cfg.max_retries le_rfl
      (fun j hj => hr j (by omega))
    rw [hsk, show cfg.max_retries + 1 - cfg.max_retries = 0 + 1 from
      by omega]
    have hlastr := hr cfg.max_retries le_rfl
    cases hlast : tr (st.requestCount + cfg.max_retries) with
    | httpError code msg =>
      rw [hlast] at hlastr
      simp only [retryable, decide_eq_true_eq] at hlastr
      rw [loop_step_stop_http cfg tr (cache_key cfg b1 b2 b3 b4) 0
        cfg.max_retries { st with requestCount :=
          st.requestCount + cfg.max_retries }
        (retryEvents 0 cfg.max_retries) le code msg hlast
        (fun hand => absurd hand.2 (lt_irrefl _))]
      simp [outcomeMsg]
    | netError msg =>
      rw [loop_step_stop_net cfg tr (cache_key cfg b1 b2 b3 b4) 0
        cfg.max_retries { st with requestCount :=
          st.requestCount + cfg.max_retries }
        (retryEvents 0 cfg.max_retries) le msg hlast (by omega)]
      simp [hlast, outcomeMsg]
    | timeoutErr msg =>
      rw [loop_step_stop_timeout cfg tr (cache_key cfg b1 b2 b3 b4) 0
        cfg.max_retries { st with requestCount :=
          st.requestCount + cfg.max_retries }
        (retryEvents 0 cfg.max_retries) le msg hlast (by omega)]
      simp [hlast, outcomeMsg]
    | success body =>
      rw [hlast] at hlastr
      simp [retryable] at hlastr
    | successUndecodable msg =>
      rw [hlast] at hlastr
      simp [retryable] at hlastr
  · intro i code msg hi hr htr hcode
    rw [compare_entry cfg st b1 b2 b3 b4 tr hkey hmiss]
    obtain ⟨le, hsk⟩ := hskip i hi hr
    rw [hsk, show cfg.max_retries + 1 - i = (cfg.max_retries - i) + 1 from
      by omega]
    rw [loop_step_stop_http cfg tr (cache_key cfg b1 b2 b3 b4)
      (cfg.max_retries - i) i { st with requestCount := st.requestCount + i }
      (retryEvents 0 i) le code msg htr (fun hand => hcode hand.1)]

/-- Witness for C7 at concrete transports: (a) one timeout then an
unparseable success; (c) three transient failures; (d) a 429 then an
HTTP 500. -/
theorem c7_retry_policy_witness :
    (compare cfg7 st0 (some [1]) (some [2]) (some [3]) (some [4]) tr7a =
      ⟨.ok (parseFailedResult (pyErrMsg (.jsonDecode "Expecting value"))),
        { st0 with requestCount := st0.requestCount + 1 + 1 },
        retryEvents 0 1 ++ [.throttle, .netRequest]⟩) ∧
    (compare cfg7 st0 (some [1]) (some [2]) (some [3]) (some [4]) tr7b =
      ⟨.ok (requestFailedResult
          (some (outcomeMsg (tr7b (st0.requestCount + cfg7.max_retries))))),
        { st0 with requestCount :=
          st0.requestCount + cfg7.max_retries + 1 },
        retryEvents 0 cfg7.max_retries ++ [.throttle, .netRequest]⟩) ∧
    (compare cfg7 st0 (some [1]) (some [2]) (some [3]) (some [4]) tr7c =
      ⟨.ok (requestFailedResult (some "boom")),
        { st0 with requestCount := st0.requestCount + 1 + 1 },
        retryEvents 0 1 ++ [.throttle, .netRequest]⟩) :=
  ⟨(c7_retry_policy cfg7 st0 [1] [2] [3] [4] tr7a (by decide)
      (fun _ => rfl)).1 1 badBody (.jsonDecode "Expecting value")
      (by decide) (by decide) rfl rfl rfl,
    (c7_retry_policy cfg7 st0 [1] [2] [3] [4] tr7b (by decide)
      (fun _ => rfl)).2.2.1 (by decide),
    (c7_retry_policy cfg7 st0 [1] [2] [3] [4] tr7c (by decide)
      (fun _ => rfl)).2.2.2 1 500 "boom" (by decide) (by decide) rfl
      (by decide)⟩

/-! Lemmas about the report-PDF extractor. -/

lemma mkReportBlocks_mem (page_idx : Nat) (page : RPage)
    (current : Option Nat) :
    ∀ (l : List (Nat × Rect)) (b : ReportBlock),
      b ∈ mkReportBlocks page_idx page current l →
      b.repeat_id = pyOr1 current ∧ b.page_index = page_idx := by
  intro l
  induction l with
  | nil => intro b hb; cases hb
  | cons hd tl ih =>
    intro b hb
    obtain ⟨did, bbox⟩ := hd
    rcases List.mem_cons.mp hb with rfl | hb
    · exact ⟨rfl, rfl⟩
    · exact ih b hb

lemma reportBlocksOfPage_mem (page_idx : Nat) (page : RPage)
    (current : Option Nat) (b : ReportBlock)
    (hb : b ∈ reportBlocksOfPage page_idx page current) :
    b.repeat_id = pyOr1 current ∧ b.page_index = page_idx :=
  mkReportBlocks_mem page_idx page current _ b hb

lemma extractReportGo_mem :
    ∀ (ps : List RPage) (i : Nat) (c : Option Nat) (b : ReportBlock),
      b ∈ extractReportGo i c ps →
      ∃ j, j < ps.length ∧ b.page_index = i + j ∧
        b.repeat_id = pyOr1 ((ps.take (j + 1)).foldl updRepeat c) := by
  intro ps
  induction ps with
  | nil => intro i c b hb; cases hb
  | cons p ps ih =>
    intro i c b hb
    rcases List.mem_append.mp hb with hb | hb
    · obtain ⟨hrep, hpage⟩ := reportBlocksOfPage_mem i p (updRepeat c p) b hb
      exact ⟨0, by simp, by simpa using hpage, by simpa using hrep⟩
    · obtain ⟨j, hj, hpage, hrep⟩ := ih (i + 1) (updRepeat c p) b hb
      refine ⟨j + 1, by simpa using hj, by rw [hpage]; omega, ?_⟩
      simpa [List.take_cons, List.foldl_cons] using hrep

/-! Lemmas about the protocol-PDF extractor. -/

lemma groupLe_trans (a b c : PGroup) (h1 : groupLe a b = true)
    (h2 : groupLe b c = true) : groupLe a c = true := by
  simp only [groupLe, decide_eq_true_eq] at *
  rcases h1 with h1 | ⟨h1e, h1n⟩ <;> rcases h2 with h2 | ⟨h2e, h2n⟩
  · exact Or.inl (lt_trans h1 h2)
  · exact Or.inl (h2e ▸ h1)
  · exact Or.inl (h1e ▸ h2)
  · exact Or.inr ⟨h1e.trans h2e, h1n.trans h2n⟩

lemma groupLe_total (a b : PGroup) : (groupLe a b || groupLe b a) = true := by
  simp only [groupLe, Bool.or_eq_true, decide_eq_true_eq]
  rcases lt_trichotomy a.row_top b.row_top with h | h | h
  · exact Or.inl (Or.inl h)
  · rcases Nat.le_total a.sortNum b.sortNum with hn | hn
    · exact Or.inl (Or.inr ⟨h, hn⟩)
    · exact Or.inr (Or.inr ⟨h.symm, hn⟩)
  · exact Or.inr (Or.inl h)

lemma pageGroups_pairwise (t : String) (p : PPage) :
    (pageGroups t p).Pairwise (fun a b => groupLe a b = true) := by
  unfold pageGroups
  split
  · exact List.Pairwise.nil
  · exact pySorted_pairwise groupLe groupLe_trans groupLe_total _

lemma pageGroups_sortNum (t : String) (p : PPage) :
    ∀ g ∈ pageGroups t p, g.sortNum = field_sort_number g.field_name := by
  unfold pageGroups
  split
  · intro g hg; cases hg
  · intro g hg
    have hg2 := (pySorted_perm _ _).mem_iff.mp hg
    obtain ⟨name, _, rfl⟩ := List.mem_map.mp hg2
    rfl

lemma buildRowsFromGroups_length (pidx : Nat) (H : ℚ) :
    ∀ (gs : List PGroup) (c : Nat),
      (buildRowsFromGroups pidx H c gs).length = gs.length
  | [], _ => rfl
  | _ :: gs, c => by
    simp [buildRowsFromGroups, buildRowsFromGroups_length pidx H gs (c + 1)]

lemma buildRowsFromGroups_get (pidx : Nat) (H : ℚ) :
    ∀ (gs : List PGroup) (c i : Nat) (h : i < gs.length)
      (h2 : i < (buildRowsFromGroups pidx H c gs).length),
      (buildRowsFromGroups pidx H c gs).get ⟨i, h2⟩ =
        mkRow pidx H (c + i + 1) (gs.get ⟨i, h⟩) := by
  intro gs
  induction gs with
  | nil => intro c i h _; cases h
  | cons g gs ih =>
    intro c i h h2
    cases i with
    | zero => rfl
    | succ n =>
      have := ih (c + 1) n (by simpa using h)
        (by simpa [buildRowsFromGroups] using h2)
      simp only [buildRowsFromGroups, List.get_cons_succ] at this ⊢
      rw [this]
      congr 2
      omega

lemma buildRowsFromGroups_mem (pidx : Nat) (H : ℚ) :
    ∀ (gs : List PGroup) (c : Nat) (r : ProtocolRow),
      r ∈ buildRowsFromGroups pidx H c gs →
      ∃ g ∈ gs, ∃ n, r = mkRow pidx H n g := by
  intro gs
  induction gs with
  | nil => intro c r hr; cases hr
  | cons g gs ih =>
    intro c r hr
    rcases List.mem_cons.mp hr with rfl | hr
    · exact ⟨g, List.mem_cons_self g gs, c + 1, rfl⟩
    · obtain ⟨g', hg', n, hn⟩ := ih (c + 1) r hr
      exact ⟨g', List.mem_cons_of_mem g hg', n, hn⟩

lemma mkRow_rowTop (pidx : Nat) (H : ℚ) (n : Nat) (g : PGroup) :
    rowTop (mkRow pidx H n g) = g.row_top := rfl

lemma mkRow_page (pidx : Nat) (H : ℚ) (n : Nat) (g : PGroup) :
    (mkRow pidx H n g).page_index = pidx := rfl

lemma mkRow_name (pidx : Nat) (H : ℚ) (n : Nat) (g : PGroup) :
    (mkRow pidx H n g).radio_group_name = g.field_name := rfl

lemma buildRows_pairwise (pidx : Nat) (H : ℚ) (t : String) (p : PPage) :
    ∀ (gs : List PGroup) (c : Nat),
      gs.Pairwise (fun a b => groupLe a b = true) →
      (∀ g ∈ gs, g.sortNum = field_sort_number g.field_name) →
      (buildRowsFromGroups pidx H c gs).Pairwise
        (fun r r' => rowSortLe r r' = true) := by
  intro gs
  induction gs with
  | nil => intro c _ _; exact List.Pairwise.nil
  | cons g gs ih =>
    intro c hpw hsn
    rw [List.pairwise_cons] at hpw
    refine List.Pairwise.cons ?_ (ih (c + 1) hpw.2 fun g' hg' =>
      hsn g' (List.mem_cons_of_mem g hg'))
    intro r' hr'
    obtain ⟨g', hg', n, rfl⟩ := buildRowsFromGroups_mem pidx H gs (c + 1)
      r' hr'
    have hle := hpw.1 g' hg'
    have e1 := hsn g (List.mem_cons_self g gs)
    have e2 := hsn g' (List.mem_cons_of_mem g hg')
    simp only [rowSortLe, mkRow_rowTop, mkRow_name, ← e1, ← e2]
    simpa [groupLe] using hle

lemma buildAllRows_mem (t : String) :
    ∀ (ps : List (Nat × PPage)) (c : Nat) (r : ProtocolRow),
      r ∈ buildAllRows t c ps →
      ∃ ip ∈ ps, ∃ g ∈ pageGroups t ip.2, ∃ n,
        r = mkRow ip.1 ip.2.height n g := by
  intro ps
  induction ps with
  | nil => intro c r hr; cases hr
  | cons ip ps ih =>
    intro c r hr
    obtain ⟨i, p⟩ := ip
    rcases List.mem_append.mp hr with hr | hr
    · obtain ⟨g, hg, n, hn⟩ := buildRowsFromGroups_mem i p.height _ c r hr
      exact ⟨(i, p), List.mem_cons_self _ _, g, hg, n, hn⟩
    · obtain ⟨ip', hip', g, hg, n, hn⟩ := ih _ r hr
      exact ⟨ip', List.mem_cons_of_mem _ hip', g, hg, n, hn⟩

lemma buildAllRows_pairwise (t : String) :
    ∀ (ps : List (Nat × PPage)) (c : Nat),
      (ps.map Prod.fst).Nodup →
      (buildAllRows t c ps).Pairwise
        (fun r r' => r.page_index = r'.page_index →
          rowSortLe r r' = true) := by
  intro ps
  induction ps with
  | nil => intro c _; exact List.Pairwise.nil
  | cons ip ps ih =>
    intro c hnd
    obtain ⟨i, p⟩ := ip
    simp only [List.map_cons, List.nodup_cons] at hnd
    rw [buildAllRows, List.pairwise_append]
    refine ⟨?_, ih _ hnd.2, ?_⟩
    · refine (buildRows_pairwise i p.height t p (pageGroups t p) c
        (pageGroups_pairwise t p) (pageGroups_sortNum t p)).imp ?_
      intro a b hab
      exact fun _ => hab
    · intro r hr r' hr' hpage
      obtain ⟨g, _, n, rfl⟩ := buildRowsFromGroups_mem i p.height _ c r hr
      obtain ⟨ip', hip', g', _, n', rfl⟩ := buildAllRows_mem t ps _ r' hr'
      exfalso
      apply hnd.1
      rw [mkRow_page] at hpage
      rw [hpage, mkRow_page]
      exact List.mem_map_of_mem Prod.fst hip'

lemma buildAllRows_num (t : String) :
    ∀ (ps : List (Nat × PPage)) (c i : Nat)
      (h : i < (buildAllRows t c ps).length),
      ((buildAllRows t c ps).get ⟨i, h⟩).repeat_id = (c + i) / 19 + 1 ∧
      ((buildAllRows t c ps).get ⟨i, h⟩).difference_id =
        (c + i) % 19 + 1 := by
  intro ps
  induction ps with
  | nil => intro c i h; cases h
  | cons ip ps ih =>
    intro c i h
    obtain ⟨iidx, p⟩ := ip
    by_cases hi : i < (buildRowsFromGroups iidx p.height c
      (pageGroups t p)).length
    · have hget : (buildAllRows t c ((iidx, p) :: ps)).get ⟨i, h⟩ =
          (buildRowsFromGroups iidx p.height c (pageGroups t p)).get
            ⟨i, hi⟩ := by
        simp only [buildAllRows]
        exact List.get_append i hi
      rw [hget, buildRowsFromGroups_get iidx p.height (pageGroups t p) c i
        (by rw [← buildRowsFromGroups_length iidx p.height _ c]; exact hi)
        hi]
      constructor <;> simp [mkRow]
    · push_neg at hi
      have hlen := buildRowsFromGroups_length iidx p.height
        (pageGroups t p) c
      have hb2 : i - (buildRowsFromGroups iidx p.height c
          (pageGroups t p)).length <
          (buildAllRows t (c + (pageGroups t p).length) ps).length := by
        have := h
        simp only [buildAllRows, List.length_append] at this
        omega
      have hget : (buildAllRows t c ((iidx, p) :: ps)).get ⟨i, h⟩ =
          (buildAllRows t (c + (pageGroups t p).length) ps).get
            ⟨i - (buildRowsFromGroups iidx p.height c
              (pageGroups t p)).length, hb2⟩ := by
        simp only [buildAllRows]
        exact List.get_append_right _ _ (by omega)
      obtain ⟨h1, h2⟩ := ih (c + (pageGroups t p).length) _ hb2
      have harith : c + (pageGroups t p).length +
          (i - (buildRowsFromGroups iidx p.height c
            (pageGroups t p)).length) = c + i := by
        omega
      rw [harith] at h1 h2
      rw [hget]
      exact ⟨h1, h2⟩

/-- C10: every difference block extracted before any "Repeat ID n"
section marker has been seen, and every block whose most recent marker
carries the number 0 (`current_repeat or 1` treats 0 as falsy), is
assigned repeat_id 1. -/
theorem c10_default_repeat (doc : List RPage) :
    ∀ b ∈ extract_report_blocks doc,
      (markerCtx doc b.page_index = none ∨
        markerCtx doc b.page_index = some 0) →
      b.repeat_id = 1 := by
  intro b hb hctx
  obtain ⟨j, hj, hpage, hrep⟩ := extractReportGo_mem doc 0 none b hb
  have hm : markerCtx doc b.page_index =
      (doc.take (j + 1)).foldl updRepeat none := by
    rw [hpage]
    simp [markerCtx]
  rcases hctx with h | h <;> rw [hm] at h <;> rw [hrep, h] <;> rfl

/-- Witness for C10: a page whose marker is "Repeat ID 0" yields blocks
with repeat_id 1. -/
theorem c10_default_repeat_witness :
    ({ repeat_id := 1
       difference_id := 3
       page_index := 0
       block_bbox := (0, 0, 0, 0)
       master_bbox := some (8, 22, -1, 32)
       sample_bbox := some (11, 22, 2, 32) } : ReportBlock).repeat_id = 1 :=
  c10_default_repeat doc10 _ (by decide) (Or.inr (by decide))

/-- C9: for any successful extraction, row number n = i+1 (0-based index
i over the returned list, sequential across pages) determines
repeat_id = ((n-1) div 19) + 1 and difference_id = ((n-1) mod 19) + 1;
and within each page the rows appear sorted first by vertical position
(row_top, the y0 of the row bboxes) and then by the numeric suffix
embedded in the field name (`field_sort_number`). -/
theorem c9_sorting_and_numbering (doc : List PPage) (test_id : String)
    (rows : List ProtocolRow)
    (hex : extract_protocol_rows doc test_id = Except.ok rows) :
    (∀ i (h : i < rows.length),
      (rows.get ⟨i, h⟩).repeat_id = i / 19 + 1 ∧
      (rows.get ⟨i, h⟩).difference_id = i % 19 + 1) ∧
    (∀ i j (hi : i < rows.length) (hj : j < rows.length), i < j →
      (rows.get ⟨i, hi⟩).page_index = (rows.get ⟨j, hj⟩).page_index →
      rowSortLe (rows.get ⟨i, hi⟩) (rows.get ⟨j, hj⟩) = true) := by
  simp only [extract_protocol_rows] at hex
  split at hex
  · cases hex
  · split at hex
    · cases hex
    · next hd tl hhd =>
      split at hex
      · cases hex
      · cases hex
        have hnodup : (((doc.enum.filter fun ip =>
            decide (hd ≤ ip.1)).map Prod.fst)).Nodup := by
          have h1 : (doc.enum.map Prod.fst).Nodup := by
            rw [List.enum_map_fst]
            exact List.nodup_range _
          exact ((List.filter_sublist _).map Prod.fst).nodup h1
        constructor
        · intro i h
          have := buildAllRows_num test_id
            (doc.enum.filter fun ip => decide (hd ≤ ip.1)) 0 i h
          simpa using this
        · intro i j hi hj hij hpage
          have hpw := buildAllRows_pairwise test_id
            (doc.enum.filter fun ip => decide (hd ≤ ip.1)) 0 hnodup
          exact List.pairwise_iff_get.mp hpw ⟨i, hi⟩ ⟨j, hj⟩ hij hpage

/-- Witness for C9 on `doc9`: two groups on one page, where the group
with the smaller embedded field number sits higher on the page, so it
receives record number 1. -/
theorem c9_sorting_and_numbering_witness :
    ((rows9.get ⟨1, by decide⟩).repeat_id = 1 / 19 + 1 ∧
      (rows9.get ⟨1, by decide⟩).difference_id = 1 % 19 + 1) ∧
    rowSortLe (rows9.get ⟨0, by decide⟩) (rows9.get ⟨1, by decide⟩) =
      true :=
  have h := c9_sorting_and_numbering doc9 "4.1-6" rows9 rfl
  ⟨h.1 1 (by decide),
    h.2 0 1 (by decide) (by decide) (by decide) (by decide)⟩


lemma eraseDupsLoop_nodup {α : Type} [BEq α] [LawfulBEq α] :
    ∀ (as bs : List α), bs.Nodup → (List.eraseDups.loop as bs).Nodup
  | [], bs, h => by
    rw [List.eraseDups.loop]
    exact List.nodup_reverse.mpr h
  | a :: as, bs, h => by
    rw [List.eraseDups.loop]
    cases hel : bs.elem a with
    | true => exact eraseDupsLoop_nodup as bs h
    | false =>
      refine eraseDupsLoop_nodup as (a :: bs) (List.nodup_cons.mpr ⟨?_, h⟩)
      intro hmem
      rw [List.elem_eq_true_of_mem hmem] at hel
      cases hel

lemma eraseDups_nodup {α : Type} [BEq α] [LawfulBEq α] (l : List α) :
    l.eraseDups.Nodup :=
  eraseDupsLoop_nodup l [] List.nodup_nil

lemma pyDictInsert_mem {κ V : Type} [DecidableEq κ] {kv : κ × V} :
    ∀ (d : List (κ × V)) (k : κ) (v : V),
      kv ∈ pyDictInsert d k v → kv ∈ d ∨ kv = (k, v)
  | [], k, v, h => by
    simp only [pyDictInsert, List.mem_singleton] at h
    exact .inr h
  | (k', v') :: rest, k, v, h => by
    simp only [pyDictInsert] at h
    split at h
    · next heq =>
      rcases List.mem_cons.mp h with rfl | h
      · right
        rw [heq]
      · exact .inl (List.mem_cons_of_mem _ h)
    · rcases List.mem_cons.mp h with rfl | h
      · exact .inl (List.mem_cons_self _ _)
      · rcases pyDictInsert_mem rest k v h with h | h
        · exact .inl (List.mem_cons_of_mem _ h)
        · exact .inr h

lemma foldl_pyDictInsert_mem {κ V : Type} [DecidableEq κ] {kv : κ × V} :
    ∀ (l d : List (κ × V)),
      kv ∈ l.foldl (fun d kv => pyDictInsert d kv.1 kv.2) d →
      kv ∈ d ∨ kv ∈ l
  | [], _, h => .inl h
  | a :: l, d, h => by
    rcases foldl_pyDictInsert_mem l (pyDictInsert d a.1 a.2)
        (by simpa using h) with h | h
    · rcases pyDictInsert_mem d a.1 a.2 h with h | h
      · exact .inl h
      · right
        rw [h]
        exact List.mem_cons_self _ _
    · exact .inr (List.mem_cons_of_mem a h)

lemma pyDict_mem_sub {κ V : Type} [DecidableEq κ] {kv : κ × V}
    {l : List (κ × V)} (h : kv ∈ pyDict l) : kv ∈ l := by
  rcases foldl_pyDictInsert_mem l [] h with h | h
  · cases h
  · exact h

lemma pyGet_mem {κ V : Type} [DecidableEq κ] {d : List (κ × V)} {k : κ}
    {v : V} (h : pyGet d k = some v) : (k, v) ∈ d := by
  unfold pyGet at h
  obtain ⟨kv, hfind, hv⟩ := Option.map_eq_some'.mp h
  have hmem := List.mem_of_find?_eq_some hfind
  have hp := List.find?_some hfind
  have hk : kv.1 = k := of_decide_eq_true hp
  have he : (k, v) = kv := by
    obtain ⟨k1, v1⟩ := kv
    simp only at hv hk
    rw [hv, hk]
  rwa [he]

lemma rowLookup_mem {rows : List ProtocolRow} {k : Nat × Nat}
    {row : ProtocolRow}
    (h : pyGet (pyDict (rows.map fun r =>
      ((r.repeat_id, r.difference_id), r))) k = some row) :
    row ∈ rows ∧ (row.repeat_id, row.difference_id) = k := by
  have h2 := pyDict_mem_sub (pyGet_mem h)
  obtain ⟨r, hr, he⟩ := List.mem_map.mp h2
  have he1 : (r.repeat_id, r.difference_id) = k := congrArg Prod.fst he
  have he2 : r = row := congrArg Prod.snd he
  rw [← he2]
  exact ⟨hr, he1⟩

/-- The key list of the full reconciliation table has no duplicates
(the expected universe is duplicate-free, the extra keys are the distinct
out-of-universe report-lookup keys). -/
lemma run_keys_nodup (inp : EngineInput) :
    ((run_reconciliation inp).map ReconciliationRow.key).Nodup := by
  have hmap : (run_reconciliation inp).map ReconciliationRow.key =
      expectedKeys ++ (extraEntries inp).map Prod.fst := by
    rw [run_reconciliation, List.map_append, processAll_map_key,
      extraRows_map_key]
  have hXnotE : ∀ k ∈ (extraEntries inp).map Prod.fst,
      k ∉ expectedKeys := by
    intro k hk
    obtain ⟨kv, hkv, rfl⟩ := List.mem_map.mp hk
    rw [extraEntries] at hkv
    exact of_decide_eq_true (List.mem_filter.mp hkv).2
  have hXnodup : ((extraEntries inp).map Prod.fst).Nodup := by
    have h1 : ((build_report_lookup inp.report_blocks).map
        Prod.fst).Nodup := pyDict_keys_nodup _
    have hperm := pySorted_perm (fun a b : (Nat × Nat) × ReportBlock =>
      keyLe a.1 b.1) (build_report_lookup inp.report_blocks)
    have h2 := (hperm.map Prod.fst).symm.nodup h1
    have hsub : List.Sublist (extraEntries inp)
        (pySorted (fun a b => keyLe a.1 b.1)
          (build_report_lookup inp.report_blocks)) := List.filter_sublist _
    exact (hsub.map Prod.fst).nodup h2
  rw [hmap]
  exact List.Nodup.append (by decide) hXnodup
    (fun a ha hX => hXnotE a hX ha)

lemma run_key_inj (inp : EngineInput) {r r' : ReconciliationRow}
    (hr : r ∈ run_reconciliation inp) (hr' : r' ∈ run_reconciliation inp)
    (hk : (r.repeat_id, r.difference_id) =
      (r'.repeat_id, r'.difference_id)) : r = r' :=
  List.inj_on_of_nodup_map (run_keys_nodup inp) hr hr' hk

/-- Every entry of the write-back decision dict is the key and decision
label of a PASS or FAIL row of the table it was built from. -/
lemma writeBack_mem (rows : List ReconciliationRow) (k : Nat × Nat)
    (v : String) (h : (k, v) ∈ writeBackDecisions rows) :
    ∃ r ∈ rows,
      (r.decision = Decision.PASS ∨ r.decision = Decision.FAIL) ∧
      (r.repeat_id, r.difference_id) = k ∧ v = r.decision.value := by
  rw [writeBackDecisions] at h
  have h2 := pyDict_mem_sub h
  obtain ⟨r, hr, he⟩ := List.mem_filterMap.mp h2
  refine ⟨r, hr, ?_⟩
  by_cases hd : r.decision = Decision.PASS ∨ r.decision = Decision.FAIL
  · rw [if_pos hd] at he
    have he' := Option.some.inj he
    exact ⟨hd, congrArg Prod.fst he', (congrArg Prod.snd he').symm⟩
  · rw [if_neg hd] at he
    cases he

lemma pySorted_map_nodup {α β : Type} (le : α → α → Bool) (f : α → β)
    (l : List α) (h : (l.map f).Nodup) :
    ((pySorted le l).map f).Nodup :=
  (((pySorted_perm le l).map f).symm).nodup h

lemma names_map_nodup (names : List String) (F : String → PGroup)
    (hF : ∀ n, (F n).field_name = n) (hnd : names.Nodup) :
    ((names.map F).map PGroup.field_name).Nodup := by
  rw [List.map_map]
  have he : ∀ ns : List String, ns.map (PGroup.field_name ∘ F) = ns := by
    intro ns
    induction ns with
    | nil => rfl
    | cons n ns ih => simp only [List.map_cons, ih, Function.comp_apply, hF]
  rwa [he]

/-- Within one page, the sorted groups carry pairwise-distinct field
names (the grouping dict is keyed by exact field name). -/
lemma pageGroups_names_nodup (t : String) (p : PPage) :
    ((pageGroups t p).map PGroup.field_name).Nodup := by
  simp only [pageGroups]
  split
  · simp
  · exact pySorted_map_nodup groupLe PGroup.field_name _
      (names_map_nodup _ _ (fun n => rfl) (eraseDups_nodup _))

/-- Within one page, a row is determined by its radio-group name. -/
lemma buildRowsFromGroups_name_inj (pidx : Nat) (H : ℚ) :
    ∀ (gs : List PGroup) (c : Nat),
      (gs.map PGroup.field_name).Nodup →
      ∀ r ∈ buildRowsFromGroups pidx H c gs,
      ∀ r' ∈ buildRowsFromGroups pidx H c gs,
        r.radio_group_name = r'.radio_group_name → r = r' := by
  intro gs
  induction gs with
  | nil => intro c _ r hr; cases hr
  | cons g gs ih =>
    intro c hnd r hr r' hr' hname
    simp only [List.map_cons, List.nodup_cons] at hnd
    simp only [buildRowsFromGroups] at hr hr'
    rcases List.mem_cons.mp hr with rfl | h1 <;>
      rcases List.mem_cons.mp hr' with h2 | h2
    · rw [h2]
    · exfalso
      obtain ⟨g', hg', n, rfl⟩ :=
        buildRowsFromGroups_mem pidx H gs (c + 1) r' h2
      rw [mkRow_name, mkRow_name] at hname
      apply hnd.1
      rw [hname]
      exact List.mem_map_of_mem PGroup.field_name hg'
    · exfalso
      obtain ⟨g', hg', n, rfl⟩ :=
        buildRowsFromGroups_mem pidx H gs (c + 1) r h1
      rw [h2, mkRow_name, mkRow_name] at hname
      apply hnd.1
      rw [← hname]
      exact List.mem_map_of_mem PGroup.field_name hg'
    · exact ih (c + 1) hnd.2 r h1 r' h2 hname

/-- Across the whole extraction, a row is determined by its page index
and radio-group name, provided the candidate page indices are distinct. -/
lemma buildAllRows_page_name_inj (t : String) :
    ∀ (ps : List (Nat × PPage)) (c : Nat),
      (ps.map Prod.fst).Nodup →
      ∀ r ∈ buildAllRows t c ps, ∀ r' ∈ buildAllRows t c ps,
        r.page_index = r'.page_index →
        r.radio_group_name = r'.radio_group_name → r = r' := by
  intro ps
  induction ps with
  | nil => intro c _ r hr; cases hr
  | cons ip ps ih =>
    intro c hnd r hr r' hr' hpage hname
    obtain ⟨i, p⟩ := ip
    simp only [List.map_cons, List.nodup_cons] at hnd
    simp only [buildAllRows] at hr hr'
    rcases List.mem_append.mp hr with h1 | h1 <;>
      rcases List.mem_append.mp hr' with h2 | h2
    · exact buildRowsFromGroups_name_inj i p.height (pageGroups t p) c
        (pageGroups_names_nodup t p) r h1 r' h2 hname
    · exfalso
      obtain ⟨g, _, n, rfl⟩ :=
        buildRowsFromGroups_mem i p.height _ c r h1
      obtain ⟨ip', hip', g', _, n', rfl⟩ := buildAllRows_mem t ps _ r' h2
      rw [mkRow_page, mkRow_page] at hpage
      apply hnd.1
      rw [hpage]
      exact List.mem_map_of_mem Prod.fst hip'
    · exfalso
      obtain ⟨g, _, n, rfl⟩ :=
        buildRowsFromGroups_mem i p.height _ c r' h2
      obtain ⟨ip', hip', g', _, n', rfl⟩ := buildAllRows_mem t ps _ r h1
      rw [mkRow_page, mkRow_page] at hpage
      apply hnd.1
      rw [← hpage]
      exact List.mem_map_of_mem Prod.fst hip'
    · exact ih _ hnd.2 r h1 r' h2 hpage hname

/-- A successful extraction is the page-threaded row build over the
candidate pages. -/
lemma extract_rows_shape (doc : List PPage) (t : String)
    (rows : List ProtocolRow)
    (hex : extract_protocol_rows doc t = Except.ok rows) :
    ∃ hd, rows = buildAllRows t 0
      (doc.enum.filter fun ip => decide (hd ≤ ip.1)) := by
  simp only [extract_protocol_rows] at hex
  split at hex
  · cases hex
  · split at hex
    · cases hex
    · next hd tl hhd =>
      split at hex
      · cases hex
      · cases hex
        exact ⟨hd, rfl⟩

/-- Two successfully extracted protocol rows on the same page with the
same radio-group name are the same row. -/
lemma extract_page_name_inj (doc : List PPage) (t : String)
    (rows : List ProtocolRow)
    (hex : extract_protocol_rows doc t = Except.ok rows) :
    ∀ r ∈ rows, ∀ r' ∈ rows,
      r.page_index = r'.page_index →
      r.radio_group_name = r'.radio_group_name → r = r' := by
  obtain ⟨hd, rfl⟩ := extract_rows_shape doc t rows hex
  have hnd : (((doc.enum.filter fun ip =>
      decide (hd ≤ ip.1)).map Prod.fst)).Nodup := by
    have h1 : (doc.enum.map Prod.fst).Nodup := by
      rw [List.enum_map_fst]
      exact List.nodup_range _
    exact ((List.filter_sublist _).map Prod.fst).nodup h1
  exact buildAllRows_page_name_inj t _ 0 hnd

lemma setPage_get (f : PPage → PPage) :
    ∀ (doc : List PPage) (j pi : Nat),
      (setPage doc j f)[pi]? =
        if pi = j then doc[pi]?.map f else doc[pi]?
  | [], j, pi => by simp [setPage]
  | p :: ps, 0, 0 => by simp [setPage]
  | p :: ps, 0, pi + 1 => by simp [setPage]
  | p :: ps, j + 1, 0 => by simp [setPage]
  | p :: ps, j + 1, pi + 1 => by
    simp only [setPage, List.getElem?_cons_succ]
    rw [setPage_get f ps j pi]
    by_cases h : pi = j
    · rw [if_pos h, if_pos (by omega)]
    · rw [if_neg h, if_neg (by omega)]

/-- One write-back entry leaves every widget's name, rectangle and
offered states unchanged; it either leaves the widget entirely unchanged
or sets its value to the entry's export value, and then only when the
entry's key looks up a row naming this widget's page and group and the
value is among the widget's offered states. -/
lemma applyOne_widgetAt (rl : List ((Nat × Nat) × ProtocolRow))
    (doc : List PPage) (k : Nat × Nat) (v : String) (pi wi : Nat)
    (w : PWidget) (hw : widgetAt doc pi wi = some w) :
    ∃ w1, widgetAt (applyOne rl doc k v) pi wi = some w1 ∧
      w1.field_name = w.field_name ∧ w1.rect = w.rect ∧
      w1.normalStates = w.normalStates ∧
      (w1 = w ∨ ∃ prow, pyGet rl k = some prow ∧
        prow.page_index = pi ∧
        prow.radio_group_name = w.field_name ∧ v ∈ w.normalStates ∧
        w1.field_value = v) := by
  cases hget : pyGet rl k with
  | none =>
    simp only [applyOne, hget]
    exact ⟨w, hw, rfl, rfl, rfl, .inl rfl⟩
  | some row =>
    simp only [applyOne, hget]
    by_cases hpi : pi = row.page_index
    · unfold widgetAt at hw ⊢
      rw [← hpi, setPage_get, if_pos rfl]
      cases hdoc : doc[pi]? with
      | none =>
        rw [hdoc] at hw
        cases hw
      | some page =>
        rw [hdoc] at hw
        have hw' : page.widgets[wi]? = some w := hw
        simp only [Option.map_some']
        have hmap : (page.widgets.map
            (updWidget row.radio_group_name v))[wi]? =
            some (updWidget row.radio_group_name v w) := by
          rw [List.getElem?_map, hw']
          rfl
        refine ⟨updWidget row.radio_group_name v w, hmap, ?_⟩
        unfold updWidget
        split
        · next hcond =>
          exact ⟨rfl, rfl, rfl, .inr ⟨row, rfl, hpi.symm, hcond.1.symm,
            hcond.2, rfl⟩⟩
        · exact ⟨rfl, rfl, rfl, .inl rfl⟩
    · unfold widgetAt at hw ⊢
      rw [setPage_get, if_neg hpi]
      exact ⟨w, hw, rfl, rfl, rfl, .inl rfl⟩

/-- Folding all write-back entries: every widget keeps its name,
rectangle and offered states; if it changed at all, some entry's looked-up
row names its page and group, the entry's value is among its offered
states, and the widget's value became that entry's value. -/
lemma applyFold_frame (rl : List ((Nat × Nat) × ProtocolRow)) :
    ∀ (ds : List ((Nat × Nat) × String)) (doc : List PPage) (pi wi : Nat)
      (w : PWidget), widgetAt doc pi wi = some w →
      ∃ w', widgetAt (ds.foldl (fun d kv => applyOne rl d kv.1 kv.2) doc)
          pi wi = some w' ∧
        w'.field_name = w.field_name ∧ w'.rect = w.rect ∧
        w'.normalStates = w.normalStates ∧
        (w' = w ∨ ∃ kv ∈ ds, ∃ prow, pyGet rl kv.1 = some prow ∧
          prow.page_index = pi ∧ prow.radio_group_name = w.field_name ∧
          kv.2 ∈ w.normalStates ∧ w'.field_value = kv.2) := by
  intro ds
  induction ds with
  | nil =>
    intro doc pi wi w hw
    exact ⟨w, hw, rfl, rfl, rfl, .inl rfl⟩
  | cons kv ds ih =>
    intro doc pi wi w hw
    obtain ⟨w1, hw1, hn1, hr1, hs1, hd1⟩ :=
      applyOne_widgetAt rl doc kv.1 kv.2 pi wi w hw
    obtain ⟨w', hw', hn', hr', hs', hd'⟩ :=
      ih (applyOne rl doc kv.1 kv.2) pi wi w1 hw1
    refine ⟨w', by simpa using hw', hn'.trans hn1, hr'.trans hr1,
      hs'.trans hs1, ?_⟩
    rcases hd' with rfl | ⟨kv', hkv', prow, hget, hpage, hname, hvm, hvl⟩
    · rcases hd1 with rfl | ⟨prow, hget, hpage, hname, hvm, hvl⟩
      · exact .inl rfl
      · exact .inr ⟨kv, List.mem_cons_self _ _, prow, hget, hpage, hname,
          hvm, hvl⟩
    · refine .inr ⟨kv', List.mem_cons_of_mem kv hkv', prow, hget, hpage,
        hname.trans hn1, ?_, hvl⟩
      rw [← hs1]
      exact hvm

/-- C8: write-back frame property. Running `apply_pass_fail_value` on the
decisions dict of a reconciliation run never touches a widget's name,
rectangle or offered export states; a widget's value changes only when
some PASS/FAIL row of the run keys a looked-up protocol row naming this
widget's page and radio group, the new value is that decision's label,
and the label is among the widget's offered export states; and every
widget whose protocol row is keyed by an N/A or UNSET row of the run is
left exactly as authored. -/
theorem c8_write_back_frame (doc : List PPage) (inp : EngineInput)
    (rows : List ProtocolRow) (out : List PPage)
    (hex : extract_protocol_rows doc "4.1-6" = Except.ok rows)
    (happ : apply_pass_fail_value doc
      (writeBackDecisions (run_reconciliation inp)) "4.1-6" =
      Except.ok out) :
    ∀ pi wi w, widgetAt doc pi wi = some w →
      ∃ w', widgetAt out pi wi = some w' ∧
        w'.field_name = w.field_name ∧ w'.rect = w.rect ∧
        w'.normalStates = w.normalStates ∧
        (w' ≠ w →
          ∃ r ∈ run_reconciliation inp,
            (r.decision = Decision.PASS ∨ r.decision = Decision.FAIL) ∧
            (∃ prow, pyGet (pyDict (rows.map fun x =>
                ((x.repeat_id, x.difference_id), x)))
                (r.repeat_id, r.difference_id) = some prow ∧
              prow.page_index = pi ∧
              prow.radio_group_name = w.field_name) ∧
            w'.field_value = r.decision.value ∧
            r.decision.value ∈ w.normalStates) ∧
        (∀ r ∈ run_reconciliation inp,
          r.decision = Decision.NA ∨ r.decision = Decision.UNSET →
          ∀ prow, pyGet (pyDict (rows.map fun x =>
              ((x.repeat_id, x.difference_id), x)))
              (r.repeat_id, r.difference_id) = some prow →
            prow.page_index = pi → prow.radio_group_name = w.field_name →
            w' = w) := by
  simp only [apply_pass_fail_value] at happ
  rw [if_neg (fun hne => hne rfl), hex] at happ
  replace happ := Except.ok.inj happ
  intro pi wi w hw
  obtain ⟨w', hw', hn, hrc, hs, hd⟩ := applyFold_frame
    (pyDict (rows.map fun r => ((r.repeat_id, r.difference_id), r)))
    (writeBackDecisions (run_reconciliation inp)) doc pi wi w hw
  rw [happ] at hw'
  refine ⟨w', hw', hn, hrc, hs, ?_, ?_⟩
  · intro hne
    rcases hd with rfl | ⟨kv, hkv, prow, hget, hpage, hname, hvm, hvl⟩
    · exact absurd rfl hne
    · obtain ⟨r2, hr2, hPF, hkey, hval2⟩ := writeBack_mem _ kv.1 kv.2 hkv
      refine ⟨r2, hr2, hPF, ⟨prow, ?_, hpage, hname⟩, ?_, ?_⟩
      · rw [hkey]
        exact hget
      · rw [hvl, hval2]
      · rw [← hval2]
        exact hvm
  · intro r hrmem hNA prow hlook hppage hpname
    rcases hd with rfl | ⟨kv, hkv, prow2, hget2, hpage2, hname2, hvm2, hvl2⟩
    · rfl
    · exfalso
      obtain ⟨r2, hr2, hPF, hkey, hval3⟩ := writeBack_mem _ kv.1 kv.2 hkv
      have hpm2 := rowLookup_mem hget2
      have hpm := rowLookup_mem hlook
      have heq : prow2 = prow :=
        extract_page_name_inj doc "4.1-6" rows hex prow2 hpm2.1 prow hpm.1
          (by rw [hpage2, hppage]) (by rw [hname2, hpname])
      have hk2 : kv.1 = (r.repeat_id, r.difference_id) := by
        rw [← hpm.2, ← heq]
        exact hpm2.2.symm
      have hrr : r2 = r := run_key_inj inp hr2 hrmem (hkey.trans hk2)
      rcases hPF with hP | hP <;> rcases hNA with hN | hN <;>
        rw [hrr, hN] at hP <;> cases hP

/-- Witness for C8 on `doc9` with the `inp0` engine run: key (1,1)
decides PASS there and maps to the group "4.1-6PassFail18diff1" on
page 0, whose widget sits at position 1. -/
theorem c8_write_back_frame_witness :
    ∃ w', widgetAt out8 0 1 = some w' ∧
      w'.field_name = (pw "4.1-6PassFail18diff1" 10).field_name ∧
      w'.rect = (pw "4.1-6PassFail18diff1" 10).rect ∧
      w'.normalStates = (pw "4.1-6PassFail18diff1" 10).normalStates ∧
      (w' ≠ pw "4.1-6PassFail18diff1" 10 →
        ∃ r ∈ run_reconciliation inp0,
          (r.decision = Decision.PASS ∨ r.decision = Decision.FAIL) ∧
          (∃ prow, pyGet (pyDict (rows9.map fun x =>
              ((x.repeat_id, x.difference_id), x)))
              (r.repeat_id, r.difference_id) = some prow ∧
            prow.page_index = 0 ∧
            prow.radio_group_name =
              (pw "4.1-6PassFail18diff1" 10).field_name) ∧
          w'.field_value = r.decision.value ∧
          r.decision.value ∈
            (pw "4.1-6PassFail18diff1" 10).normalStates) ∧
      (∀ r ∈ run_reconciliation inp0,
        r.decision = Decision.NA ∨ r.decision = Decision.UNSET →
        ∀ prow, pyGet (pyDict (rows9.map fun x =>
            ((x.repeat_id, x.difference_id), x)))
            (r.repeat_id, r.difference_id) = some prow →
          prow.page_index = 0 →
          prow.radio_group_name =
            (pw "4.1-6PassFail18diff1" 10).field_name →
          w' = pw "4.1-6PassFail18diff1" 10) :=
  c8_write_back_frame doc9 inp0 rows9 out8 rfl rfl 0 1
    (pw "4.1-6PassFail18diff1" 10) rfl

end VRA
